import Mathlib

/-!
Shallow embedding of the GDPR obfuscator pipeline
(src/src/obfuscator.py, src/src/utils.py, src/src/main.py).

Row-batches (pandas DataFrames) are modelled row-major: a list of column
names plus a list of rows of scalar values.  Scalars are integers or
strings, matching the fragment of pandas dtype inference exercised by the
program (int64 columns and object columns of strings).  Python exceptions
are modelled by an explicit error type threaded through Except.
-/

/-- Scalar value held in a row-batch cell: either an inferred integer
(pandas int64 column) or a plain string (object column). -/
inductive Value where
  | int (n : Int)
  | str (s : String)
deriving DecidableEq, Repr

/-- Python exception kinds that the program raises or wraps:
KeyError, ValueError and the generic Exception. -/
inductive PyError where
  | keyError (msg : String)
  | valueError (msg : String)
  | exception (msg : String)
deriving DecidableEq, Repr

/-- Coarse error kind, used to state which exception class a caller of the
entry points can branch on. -/
inductive ErrKind where
  | keyK
  | valueK
  | excK
deriving DecidableEq, Repr

def kindOf : PyError → ErrKind
  | .keyError _ => .keyK
  | .valueError _ => .valueK
  | .exception _ => .excK

def quoteChar : Char := Char.ofNat 34

def backslashChar : Char := Char.ofNat 92

def lbraceChar : Char := Char.ofNat 123

def rbraceChar : Char := Char.ofNat 125

def lbrack : Char := Char.ofNat 91

def rbrack : Char := Char.ofNat 93

def containsChar (s : String) (c : Char) : Bool := s.data.contains c

/-- Python repr of a string as used by str(KeyError(msg)): double quotes
surround a message that contains a single quote and no double quote;
otherwise single quotes surround it and every single quote inside is
backslash-escaped (so a message holding both quote kinds keeps its double
quotes and gets backslash-escaped single quotes).  Backslashes and the
common control characters are escaped as repr does; other non-printable
escapes do not arise in the modelled messages. -/
def pyReprStr (s : String) : String :=
  let q : Char :=
    if containsChar s '\'' && !(containsChar s '"') then Char.ofNat 34
    else '\''
  let esc : List Char := s.data.foldr
    (fun c acc =>
      if c = backslashChar then backslashChar :: backslashChar :: acc
      else if c = q then backslashChar :: c :: acc
      else if c = '\n' then backslashChar :: 'n' :: acc
      else if c = '\t' then backslashChar :: 't' :: acc
      else if c = '\r' then backslashChar :: 'r' :: acc
      else c :: acc) []
  String.mk (q :: esc ++ [q])

/-- Python str(e) for the modelled exceptions: KeyError shows the repr of
its argument, ValueError and Exception show the message verbatim. -/
def pyStr : PyError → String
  | .keyError m => pyReprStr m
  | .valueError m => m
  | .exception m => m

/-- Row-batch: ordered column names plus rows of cells (row-major). -/
structure DataFrame where
  cols : List String
  rows : List (List Value)
deriving DecidableEq, Repr

/-- Index of the first occurrence of a name in a column list (the column
position pandas assigns to a label). -/
def idxOf (a : String) : List String → Nat
  | [] => 0
  | b :: l => if b = a then 0 else idxOf a l + 1

/-- Setting a whole column to a constant value, the effect of the pandas
assignment df[field] = value. -/
def setCol (df : DataFrame) (field : String) (v : Value) : DataFrame :=
  { df with rows := df.rows.map (fun r => r.set (idxOf field df.cols) v) }

/-- The mask constant written into every obfuscated cell. -/
def maskValue : Value := .str "***"

/-- Error message raised by obfuscate_fields_in_df for a missing field;
the source concatenates "... not" + "found ..." with no space between. -/
def fieldNotFoundMsg (field : String) : String :=
  "Field '" ++ field ++ "' not" ++ "found in the data."

/-- Loop body of obfuscate_fields_in_df with the in-place mutation made
explicit: returns the state of the DataFrame at exit together with the
raised exception, if any.  Fields are processed in list order and the
loop stops at the first missing field, leaving earlier assignments in
place. -/
def maskRun : DataFrame → List String → DataFrame × Option PyError
  | df, [] => (df, none)
  | df, f :: fs =>
    if f ∈ df.cols then maskRun (setCol df f maskValue) fs
    else (df, some (.keyError (fieldNotFoundMsg f)))

/-- obfuscate_fields_in_df (src/src/obfuscator.py lines 8-26): masks each
listed field, raising KeyError on the first field absent from the
columns. -/
def obfuscate_fields_in_df (df : DataFrame) (fields_list : List String) :
    Except PyError DataFrame :=
  match maskRun df fields_list with
  | (d, none) => .ok d
  | (_, some e) => .error e

/-- Cell of row r at column position j (default for out-of-range never
used on rectangular data). -/
def cellAt (r : List Value) (j : Nat) : Value := r.getD j (.str "")

/-- Column of a DataFrame by name, read off row-major storage. -/
def colValues (df : DataFrame) (f : String) : List Value :=
  df.rows.map (fun r => cellAt r (idxOf f df.cols))

/-- Rectangular well-formedness: every row has one cell per column. -/
def rect (df : DataFrame) : Prop :=
  ∀ r ∈ df.rows, r.length = df.cols.length

instance (df : DataFrame) : Decidable (rect df) := by
  unfold rect
  infer_instance

/-! Helper lemmas about list indexing used to reason about column
assignment in row-major storage. -/

theorem getD_eq_getElem (l : List α) (d : α) (h : i < l.length) :
    l.getD i d = l[i] := by
  simp [List.getD, List.getElem?_eq_getElem h]

theorem getD_map (g : α → β) (l : List α) (d₁ : β) (d₂ : α) (h : i < l.length) :
    (l.map g).getD i d₁ = g (l.getD i d₂) := by
  rw [getD_eq_getElem _ _ (by simpa using h), getD_eq_getElem _ _ h]
  simp

theorem getD_set_self (l : List α) (v d : α) (h : i < l.length) :
    (l.set i v).getD i d = v := by
  rw [getD_eq_getElem _ _ (by simpa using h)]
  simp [List.getElem_set_self]

theorem getD_set_ne (l : List α) (v d : α) (h : i ≠ j) :
    (l.set i v).getD j d = l.getD j d := by
  by_cases hj : j < l.length
  · rw [getD_eq_getElem _ _ (by simpa using hj), getD_eq_getElem _ _ hj]
    exact List.getElem_set_ne h _
  · have h1 : l.length ≤ j := Nat.le_of_not_lt hj
    rw [List.getD_eq_default _ _ (by simpa using h1), List.getD_eq_default _ _ h1]

theorem idxOf_lt_length {a : String} {l : List String} (h : a ∈ l) :
    idxOf a l < l.length := by
  induction l with
  | nil => cases h
  | cons b t ih =>
    by_cases hb : b = a
    · simp [idxOf, hb]
    · have ht : a ∈ t := by
        cases h with
        | head => exact absurd rfl hb
        | tail _ h' => exact h'
      simp only [idxOf, hb, if_false, List.length_cons]
      exact Nat.succ_lt_succ (ih ht)

theorem getD_idxOf {a : String} {l : List String} (d : String) (h : a ∈ l) :
    l.getD (idxOf a l) d = a := by
  induction l with
  | nil => cases h
  | cons b t ih =>
    by_cases hb : b = a
    · simp [idxOf, hb]
    · have ht : a ∈ t := by
        cases h with
        | head => exact absurd rfl hb
        | tail _ h' => exact h'
      simp only [idxOf, hb, if_false]
      simpa using ih ht

theorem nodup_getD_idxOf {l : List String} (hn : l.Nodup) (hj : j < l.length)
    (ha : l.getD j d = a) : j = idxOf a l := by
  induction l generalizing j with
  | nil => simp at hj
  | cons b t ih =>
    have hn' : b ∉ t ∧ t.Nodup := by simpa using hn
    cases j with
    | zero =>
      simp only [List.getD_cons_zero] at ha
      simp [idxOf, ha]
    | succ j =>
      simp only [List.getD_cons_succ] at ha
      have hjt : j < t.length := by simpa using hj
      have hj' := ih hn'.2 hjt ha
      have hba : b ≠ a := by
        intro hcon
        subst hcon
        subst ha
        exact hn'.1 (by
          have := getD_eq_getElem t d hjt
          rw [this]
          exact List.getElem_mem hjt)
      simp [idxOf, hba, hj']

/-- Pointwise description of a successful masking run: when every listed
field is a column, no error is raised, columns and row count are kept, and
each cell is the mask value exactly when its column is listed. -/
theorem maskRun_ok (fields : List String) (df : DataFrame)
    (hn : df.cols.Nodup) (hr : rect df) (hf : ∀ f ∈ fields, f ∈ df.cols) :
    (maskRun df fields).2 = none ∧
    (maskRun df fields).1.cols = df.cols ∧
    (maskRun df fields).1.rows.length = df.rows.length ∧
    ∀ i, i < df.rows.length → ∀ j,
      cellAt ((maskRun df fields).1.rows.getD i []) j =
        if df.cols.getD j "" ∈ fields ∧ j < df.cols.length then maskValue
        else cellAt (df.rows.getD i []) j := by
  induction fields generalizing df with
  | nil =>
    refine ⟨rfl, rfl, rfl, ?_⟩
    intro i _ j
    simp [maskRun]
  | cons f fs ih =>
    have hfc : f ∈ df.cols := hf f (List.mem_cons_self f fs)
    have hcols' : (setCol df f maskValue).cols = df.cols := rfl
    have hlen' : (setCol df f maskValue).rows.length = df.rows.length := by
      simp [setCol]
    have hn' : (setCol df f maskValue).cols.Nodup := hn
    have hr' : rect (setCol df f maskValue) := by
      intro r hrr
      simp only [setCol, List.mem_map] at hrr
      obtain ⟨r₀, hr₀, hre⟩ := hrr
      rw [← hre]
      simp [hcols', hr r₀ hr₀]
    have hf' : ∀ g ∈ fs, g ∈ (setCol df f maskValue).cols := by
      intro g hg
      exact hf g (List.mem_cons_of_mem f hg)
    have hstep : maskRun df (f :: fs) = maskRun (setCol df f maskValue) fs := by
      simp [maskRun, hfc]
    obtain ⟨ih1, ih2, ih3, ih4⟩ := ih (setCol df f maskValue) hn' hr' hf'
    refine ⟨by rw [hstep]; exact ih1, by rw [hstep]; rw [ih2]; exact hcols',
      by rw [hstep]; rw [ih3]; exact hlen', ?_⟩
    intro i hi j
    rw [hstep]
    have hi' : i < (setCol df f maskValue).rows.length := by
      rw [hlen']; exact hi
    have h4 := ih4 i hi' j
    rw [hcols'] at h4
    rw [h4]
    have hrowmem : df.rows.getD i [] ∈ df.rows := by
      rw [getD_eq_getElem _ _ hi]
      exact List.getElem_mem hi
    have hrowlen : (df.rows.getD i []).length = df.cols.length :=
      hr _ hrowmem
    have hsetrow : (setCol df f maskValue).rows.getD i [] =
        (df.rows.getD i []).set (idxOf f df.cols) maskValue := by
      simp only [setCol]
      exact getD_map _ _ _ [] hi
    by_cases hcase : j < df.cols.length ∧ df.cols.getD j "" = f
    · obtain ⟨hjlen, hjf⟩ := hcase
      have hjidx : j = idxOf f df.cols := nodup_getD_idxOf hn hjlen hjf
      have hmem : df.cols.getD j "" ∈ f :: fs := by
        rw [hjf]; exact List.mem_cons_self f fs
      by_cases hfs : df.cols.getD j "" ∈ fs
      · rw [if_pos ⟨hfs, hjlen⟩, if_pos ⟨hmem, hjlen⟩]
      · rw [if_neg (fun hc => hfs hc.1), if_pos ⟨hmem, hjlen⟩, hsetrow]
        subst hjidx
        unfold cellAt
        exact getD_set_self _ _ _ (by rw [hrowlen]; exact hjlen)
    · have hne : j ≠ idxOf f df.cols := by
        intro hcon
        apply hcase
        refine ⟨?_, ?_⟩
        · rw [hcon]; exact idxOf_lt_length hfc
        · rw [hcon]; exact getD_idxOf _ hfc
      have hcell : cellAt ((setCol df f maskValue).rows.getD i []) j
          = cellAt (df.rows.getD i []) j := by
        rw [hsetrow]
        unfold cellAt
        exact getD_set_ne _ _ _ (Ne.symm hne)
      rw [hcell]
      by_cases hjl : j < df.cols.length
      · have hjf : df.cols.getD j "" ≠ f := fun hcon => hcase ⟨hjl, hcon⟩
        by_cases hfs2 : df.cols.getD j "" ∈ fs
        · rw [if_pos ⟨hfs2, hjl⟩, if_pos ⟨List.mem_cons_of_mem f hfs2, hjl⟩]
        · rw [if_neg (fun hc => hfs2 hc.1),
            if_neg (fun hc => (List.mem_cons.mp hc.1).elim
              (fun he => hjf he) (fun hm2 => hfs2 hm2))]
      · rw [if_neg (fun hc => hjl hc.2), if_neg (fun hc => hjl hc.2)]

/-- Successful masking returns the final state of the run. -/
theorem obfuscate_eq_ok_of_none {df : DataFrame} {fields : List String}
    (h : (maskRun df fields).2 = none) :
    obfuscate_fields_in_df df fields = .ok (maskRun df fields).1 := by
  unfold obfuscate_fields_in_df
  cases hm : maskRun df fields with
  | mk d o =>
    rw [hm] at h
    simp only at h
    subst h
    rfl

/-- C1: for every row-batch and every field list whose names all occur in
the batch columns, obfuscate_fields_in_df returns a batch with identical
row count and column list in which every value of every listed field is
the mask constant "***" and every column not listed is unchanged. -/
theorem mask_batch_masks_listed_fields_only (df : DataFrame)
    (fields : List String) (hn : df.cols.Nodup) (hr : rect df)
    (hf : ∀ f ∈ fields, f ∈ df.cols) :
    ∃ df', obfuscate_fields_in_df df fields = .ok df' ∧
      df'.cols = df.cols ∧
      df'.rows.length = df.rows.length ∧
      (∀ f ∈ fields, ∀ v ∈ colValues df' f, v = maskValue) ∧
      (∀ c ∈ df.cols, c ∉ fields → colValues df' c = colValues df c) := by
  obtain ⟨h1, h2, h3, h4⟩ := maskRun_ok fields df hn hr hf
  refine ⟨(maskRun df fields).1, obfuscate_eq_ok_of_none h1, h2, h3, ?_, ?_⟩
  · intro f hfm v hv
    unfold colValues at hv
    rw [h2] at hv
    obtain ⟨r, hrmem, hre⟩ := List.mem_map.mp hv
    obtain ⟨i, hilt, hieq⟩ := List.getElem_of_mem hrmem
    have hilt' : i < df.rows.length := by rw [← h3]; exact hilt
    have hgd : (maskRun df fields).1.rows.getD i [] = r := by
      rw [getD_eq_getElem _ _ hilt]; exact hieq
    have hpt := h4 i hilt' (idxOf f df.cols)
    rw [hgd] at hpt
    have hcond : df.cols.getD (idxOf f df.cols) "" ∈ fields ∧
        idxOf f df.cols < df.cols.length := by
      refine ⟨?_, idxOf_lt_length (hf f hfm)⟩
      rw [getD_idxOf _ (hf f hfm)]
      exact hfm
    rw [if_pos hcond] at hpt
    rw [← hre]
    exact hpt
  · intro c hcm hcnot
    unfold colValues
    rw [h2]
    apply List.ext_getElem
    · simp [h3]
    · intro i h1i h2i
      simp only [List.getElem_map]
      have hilt' : i < df.rows.length := by simpa using h2i
      have hilt : i < (maskRun df fields).1.rows.length := by
        rw [h3]; exact hilt'
      have hpt := h4 i hilt' (idxOf c df.cols)
      rw [getD_eq_getElem _ _ hilt, getD_eq_getElem _ _ hilt'] at hpt
      have hcond : ¬(df.cols.getD (idxOf c df.cols) "" ∈ fields ∧
          idxOf c df.cols < df.cols.length) := by
        intro hc
        apply hcnot
        rw [getD_idxOf "" hcm] at hc
        exact hc.1
      rw [if_neg hcond] at hpt
      exact hpt

/-- Concrete batch used by witnesses. -/
def dfW : DataFrame :=
  { cols := ["student_id", "name"],
    rows := [[.int 1234, .str "John Smith"], [.int 55, .str "Ann Lee"]] }

/-- Witness for the C1 theorem at a concrete batch. -/
theorem mask_batch_masks_listed_fields_only_witness :
    dfW.cols.Nodup ∧ rect dfW ∧ (∀ f ∈ ["name"], f ∈ dfW.cols) ∧
    (∃ df', obfuscate_fields_in_df dfW ["name"] = .ok df' ∧
      df'.cols = dfW.cols ∧
      df'.rows.length = dfW.rows.length ∧
      (∀ f ∈ ["name"], ∀ v ∈ colValues df' f, v = maskValue) ∧
      (∀ c ∈ dfW.cols, c ∉ ["name"] → colValues df' c = colValues dfW c)) :=
  ⟨by decide, by decide, by decide,
    mask_batch_masks_listed_fields_only dfW ["name"]
      (by decide) (by decide) (by decide)⟩

/-- Columns of every listed field are fully masked in the final state of a
successful run. -/
theorem maskRun_col_masked (df : DataFrame) (fields : List String)
    (hn : df.cols.Nodup) (hr : rect df) (hf : ∀ f ∈ fields, f ∈ df.cols) :
    ∀ f ∈ fields, ∀ v ∈ colValues (maskRun df fields).1 f, v = maskValue := by
  obtain ⟨h1, h2, h3, h4⟩ := maskRun_ok fields df hn hr hf
  intro f hfm v hv
  unfold colValues at hv
  rw [h2] at hv
  obtain ⟨r, hrmem, hre⟩ := List.mem_map.mp hv
  obtain ⟨i, hilt, hieq⟩ := List.getElem_of_mem hrmem
  have hilt' : i < df.rows.length := by rw [← h3]; exact hilt
  have hgd : (maskRun df fields).1.rows.getD i [] = r := by
    rw [getD_eq_getElem _ _ hilt]; exact hieq
  have hpt := h4 i hilt' (idxOf f df.cols)
  rw [hgd] at hpt
  have hcond : df.cols.getD (idxOf f df.cols) "" ∈ fields ∧
      idxOf f df.cols < df.cols.length := by
    refine ⟨?_, idxOf_lt_length (hf f hfm)⟩
    rw [getD_idxOf _ (hf f hfm)]
    exact hfm
  rw [if_pos hcond] at hpt
  rw [← hre]
  exact hpt

/-- Running the loop over an appended list first runs the whole front list
when that run raises no error. -/
theorem maskRun_append (pre l : List String) (df : DataFrame)
    (h : (maskRun df pre).2 = none) :
    maskRun df (pre ++ l) = maskRun (maskRun df pre).1 l := by
  induction pre generalizing df with
  | nil => rfl
  | cons f fs ih =>
    by_cases hfc : f ∈ df.cols
    · have hstep : maskRun df (f :: fs) = maskRun (setCol df f maskValue) fs := by
        simp [maskRun, hfc]
      have hstep' : maskRun df (f :: fs ++ l) =
          maskRun (setCol df f maskValue) (fs ++ l) := by
        simp [maskRun, hfc]
      rw [hstep] at h ⊢
      rw [hstep']
      exact ih _ h
    · exfalso
      have : (maskRun df (f :: fs)).2 = some (.keyError (fieldNotFoundMsg f)) := by
        simp [maskRun, hfc]
      rw [h] at this
      cases this

/-- C10: obfuscate_fields_in_df works through the field list in order and
mutates the caller batch in place, so when a later field is missing the
call raises KeyError while every earlier listed field has already been
overwritten with the mask value in the batch state. -/
theorem mask_error_leaves_earlier_fields_masked (df : DataFrame)
    (pre rest : List String) (bad : String) (hn : df.cols.Nodup)
    (hr : rect df) (hpre : ∀ f ∈ pre, f ∈ df.cols) (hbad : bad ∉ df.cols) :
    maskRun df (pre ++ bad :: rest) =
      ((maskRun df pre).1, some (.keyError (fieldNotFoundMsg bad))) ∧
    obfuscate_fields_in_df df (pre ++ bad :: rest) =
      .error (.keyError (fieldNotFoundMsg bad)) ∧
    (∀ f ∈ pre, ∀ v ∈ colValues (maskRun df (pre ++ bad :: rest)).1 f,
      v = maskValue) := by
  obtain ⟨h1, h2, _, _⟩ := maskRun_ok pre df hn hr hpre
  have hbad' : bad ∉ (maskRun df pre).1.cols := by rw [h2]; exact hbad
  have happ : maskRun df (pre ++ bad :: rest) =
      ((maskRun df pre).1, some (.keyError (fieldNotFoundMsg bad))) := by
    rw [maskRun_append pre (bad :: rest) df h1]
    simp [maskRun, hbad']
  refine ⟨happ, ?_, ?_⟩
  · unfold obfuscate_fields_in_df
    rw [happ]
  · rw [happ]
    exact maskRun_col_masked df pre hn hr hpre

/-- Witness for the C10 theorem: masking ["name", "cohort"] on a batch
without a cohort column raises, with the name column already masked. -/
theorem mask_error_leaves_earlier_fields_masked_witness :
    dfW.cols.Nodup ∧ rect dfW ∧ (∀ f ∈ ["name"], f ∈ dfW.cols) ∧
    "cohort" ∉ dfW.cols ∧
    (maskRun dfW (["name"] ++ "cohort" :: []) =
      ((maskRun dfW ["name"]).1, some (.keyError (fieldNotFoundMsg "cohort"))) ∧
    obfuscate_fields_in_df dfW (["name"] ++ "cohort" :: []) =
      .error (.keyError (fieldNotFoundMsg "cohort")) ∧
    (∀ f ∈ ["name"], ∀ v ∈ colValues (maskRun dfW (["name"] ++ "cohort" :: [])).1 f,
      v = maskValue)) :=
  ⟨by decide, by decide, by decide, by decide,
    mask_error_leaves_earlier_fields_masked dfW ["name"] [] "cohort"
      (by decide) (by decide) (by decide) (by decide)⟩

/-! String helpers.  Characters that the token rules make awkward to spell
are named once here. -/

/-- Split a character list at every occurrence of a separator; always
returns at least one (possibly empty) piece, like Python split. -/
def splitOnChar (c : Char) : List Char → List (List Char)
  | [] => [[]]
  | a :: rest =>
    let r := splitOnChar c rest
    if a = c then [] :: r
    else (a :: r.headD []) :: r.tail

def splitString (c : Char) (s : String) : List String :=
  (splitOnChar c s.data).map (fun l => String.mk l)

def myIntercalate (sep : String) : List String → String
  | [] => ""
  | [x] => x
  | x :: y :: xs => x ++ sep ++ myIntercalate sep (y :: xs)

def joinStrings : List String → String
  | [] => ""
  | x :: xs => x ++ joinStrings xs

/-- Lowercasing as Python str.lower does on the ASCII range used here. -/
def charLower (c : Char) : Char :=
  if 'A' ≤ c ∧ c ≤ 'Z' then Char.ofNat (c.toNat + 32) else c

def pyLower (s : String) : String := String.mk (s.data.map charLower)

/-- One pass of Python str.replace on character lists, replacing every
non-overlapping occurrence left to right; fuel is the input length, enough
because every step consumes at least one character. -/
def replaceFuel (pat rep : List Char) : Nat → List Char → List Char
  | 0, s => s
  | fuel + 1, s =>
    if pat ≠ [] ∧ pat.isPrefixOf s then
      rep ++ replaceFuel pat rep fuel (s.drop pat.length)
    else
      match s with
      | [] => []
      | c :: t => c :: replaceFuel pat rep fuel t

/-- Python str.replace (all occurrences).  The program only calls it with
the nonempty patterns "s3://" and "new_data". -/
def strReplace (s pat rep : String) : String :=
  if pat.data = [] then s
  else String.mk (replaceFuel pat.data rep.data s.data.length s.data)

/-- Grouping a list into consecutive chunks of size n (the shape of the
pandas chunked read); the n = 0 guard is never reached because the callers
validate the chunk size first. -/
def chunkListAux (n : Nat) : Nat → List α → List (List α)
  | _, [] => []
  | 0, _ :: _ => []
  | fuel + 1, a :: t => (a :: t).take n :: chunkListAux n fuel ((a :: t).drop n)

/-- Grouping a list into consecutive chunks of size n (the shape of the
pandas chunked read), written with a fuel argument so it is structurally
recursive; the fuel never runs out because every step with n ≥ 1 drops at
least one element.  The n = 0 guard is never reached because the callers
validate the chunk size first. -/
def chunkList (n : Nat) (l : List α) : List (List α) :=
  if n = 0 then [] else chunkListAux n l.length l

theorem chunkListAux_fuel_irrelevant (n : Nat) (hn : n ≠ 0) :
    ∀ (fuel₁ fuel₂ : Nat) (l : List α), l.length ≤ fuel₁ → l.length ≤ fuel₂ →
      chunkListAux n fuel₁ l = chunkListAux n fuel₂ l := by
  intro fuel₁
  induction fuel₁ using Nat.strong_induction_on with
  | _ fuel₁ ih =>
    intro fuel₂ l h₁ h₂
    match l, fuel₁, fuel₂ with
    | [], f₁, f₂ => cases f₁ <;> cases f₂ <;> simp [chunkListAux]
    | a :: t, 0, _ => simp at h₁
    | a :: t, _, 0 => simp at h₂
    | a :: t, f₁ + 1, f₂ + 1 =>
      simp only [chunkListAux]
      congr 1
      apply ih f₁ (Nat.lt_succ_self f₁) f₂
      · simp only [List.length_drop, List.length_cons]
        simp only [List.length_cons] at h₁
        omega
      · simp only [List.length_drop, List.length_cons]
        simp only [List.length_cons] at h₂
        omega

theorem chunkList_cons (n : Nat) (hn : n ≠ 0) (a : α) (t : List α) :
    chunkList n (a :: t) =
      (a :: t).take n :: chunkList n ((a :: t).drop n) := by
  unfold chunkList
  rw [if_neg hn, if_neg hn]
  show chunkListAux n (t.length + 1) (a :: t) = _
  simp only [chunkListAux]
  congr 1
  apply chunkListAux_fuel_irrelevant n hn
  · simp only [List.length_drop, List.length_cons]
    omega
  · simp only [List.length_drop, List.length_cons]
    omega

theorem chunkList_nil (n : Nat) : chunkList n ([] : List α) = [] := by
  unfold chunkList
  cases n <;> simp [chunkListAux]

/-! CSV reading, modelling the fragment of pandas.read_csv the program
relies on: comma-separated fields with no quoting, newline-terminated
records, per-chunk column dtype inference distinguishing int64 columns
(every cell an optionally signed digit string) from object columns kept
as raw strings.  The well-formedness hypotheses of the theorems restrict
inputs to this faithfully modelled fragment. -/

def dropTrailingEmptyLines (ls : List String) : List String :=
  (ls.reverse.dropWhile (fun s => s == "")).reverse

def toLines (s : String) : List String :=
  dropTrailingEmptyLines (splitString '\n' s)

/-- Parse CSV text into a header and raw string rows; none models the
pandas EmptyDataError on content with no lines.  Quoting, interior blank
line skipping and ragged-row handling (ParserError, index promotion) are
not modelled: the csvWf hypothesis of every theorem built on this parser
excludes such content, so on the admitted fragment this parse agrees with
read_csv cell for cell. -/
def parseCsv (s : String) : Option (List String × List (List String)) :=
  match toLines s with
  | [] => none
  | h :: rs => some (splitString ',' h, rs.map (splitString ','))

def digitsToNat (cs : List Char) : Nat :=
  cs.foldl (fun n c => n * 10 + (c.toNat - ('0').toNat)) 0

/-- Does pandas infer this cell as an integer: optional sign followed by
at least one digit.  Float, boolean and na inference are not modelled:
cells subject to them (see floatLike, boolMarkers, naMarkers) are
excluded by the plainCell condition inside the csvWf hypotheses, so on
the admitted fragment int64-versus-object is the whole dtype story. -/
def intLike (s : String) : Bool :=
  let cs := if s.data.headD ' ' = '-' ∨ s.data.headD ' ' = '+'
            then s.data.tail else s.data
  !cs.isEmpty && cs.all (fun c => c.isDigit)

def parseIntStr (s : String) : Int :=
  match s.data with
  | '-' :: rest => -(digitsToNat rest : Int)
  | '+' :: rest => (digitsToNat rest : Int)
  | cs => (digitsToNat cs : Int)

/-- Column dtype inference over the rows of one parsed chunk: a column is
int64 iff every cell in this chunk is integer-like (pandas infers dtypes
independently per chunk when reading with chunksize). -/
def colIsInt (strRows : List (List String)) (j : Nat) : Bool :=
  strRows.all (fun r => intLike (r.getD j ""))

def inferCell (isInt : Bool) (s : String) : Value :=
  if isInt then .int (parseIntStr s) else .str s

/-- DataFrame built by pandas from one chunk of parsed CSV rows.  The
getD defaults pad or truncate a ragged row where pandas would instead
raise ParserError or promote an index; the csvWf hypotheses admit only
rectangular rows, on which neither default fires. -/
def mkDf (colNames : List String) (strRows : List (List String)) : DataFrame :=
  { cols := colNames,
    rows := strRows.map (fun r =>
      (List.range colNames.length).map (fun j =>
        inferCell (colIsInt strRows j) (r.getD j ""))) }

/-! CSV writing (pandas DataFrame.to_csv with index=False): one comma
separated line per row, each line newline-terminated, integers in decimal,
strings verbatim (the modelled fragment has no cells needing quoting). -/

def renderValue : Value → String
  | .int n => toString n
  | .str s => s

def headerLine (cols : List String) : String := myIntercalate "," cols ++ "\n"

def rowLine (r : List Value) : String :=
  myIntercalate "," (r.map renderValue) ++ "\n"

/-- DataFrame.to_csv(output, index=False, header=writeHeader).  QUOTE
MINIMAL quoting of cells holding separators or quote characters is not
modelled; the plainCell / plainJsonValue conditions of the theorem
hypotheses exclude such cells, so on the admitted fragment every field is
written verbatim exactly as to_csv does. -/
def dfToCsv (df : DataFrame) (writeHeader : Bool) : String :=
  (if writeHeader then headerLine df.cols else "") ++
    joinStrings (df.rows.map rowLine)

/-- process_df_chunk (src/src/obfuscator.py lines 29-43): mask the chunk
then append its CSV form to the output buffer, with the header iff this is
the first chunk. -/
def process_df_chunk (chunk : DataFrame) (fields_list : List String)
    (output : String) (first : Bool) : Except PyError String :=
  match obfuscate_fields_in_df chunk fields_list with
  | .error e => .error e
  | .ok df' => .ok (output ++ dfToCsv df' first)

/-- The read-mask-write loop shared by the three source paths: process the
chunks in order, threading the buffer and the first-chunk flag; an error
aborts the loop. -/
def runChunks (fields_list : List String) :
    List DataFrame → Bool → String → Except PyError String
  | [], _, buf => .ok buf
  | df :: dfs, first, buf =>
    match process_df_chunk df fields_list buf first with
    | .error e => .error e
    | .ok buf' => runChunks fields_list dfs false buf'

/-! JSON parsing, modelling the fragment of ijson/json.loads the program
exercises: arrays, flat objects, strings without escape sequences, and
integers.  Content outside this fragment parses to none and is excluded
from the theorems by their parse hypotheses. -/

inductive JVal where
  | jstr (s : String)
  | jint (n : Int)
  | jarr (xs : List JVal)
  | jobj (kvs : List (String × JVal))

def skipWs : List Char → List Char
  | [] => []
  | c :: rest =>
    if c = ' ' ∨ c = '\n' ∨ c = '\t' ∨ c = '\r' then skipWs rest
    else c :: rest

def parseStrAux : List Char → Option (List Char × List Char)
  | [] => none
  | c :: rest =>
    if c = quoteChar then some ([], rest)
    else if c = backslashChar then none
    else
      match parseStrAux rest with
      | some (d, r) => some (c :: d, r)
      | none => none

def takeDigits : List Char → List Char × List Char
  | [] => ([], [])
  | c :: rest =>
    if c.isDigit then
      let p := takeDigits rest
      (c :: p.1, p.2)
    else ([], c :: rest)

def parseIntLit (cs : List Char) : Option (Int × List Char) :=
  match cs with
  | '-' :: rest =>
    match takeDigits rest with
    | ([], _) => none
    | (ds, r) => some (-(digitsToNat ds : Int), r)
  | _ =>
    match takeDigits cs with
    | ([], _) => none
    | (ds, r) => some ((digitsToNat ds : Int), r)

mutual

def parseJVal : Nat → List Char → Option (JVal × List Char)
  | 0, _ => none
  | fuel + 1, cs0 =>
    match skipWs cs0 with
    | [] => none
    | c :: rest =>
      if c = quoteChar then
        match parseStrAux rest with
        | some (d, r) => some (.jstr (String.mk d), r)
        | none => none
      else if c = lbrack then
        match skipWs rest with
        | c2 :: r2 =>
          if c2 = rbrack then some (.jarr [], r2)
          else
            match parseArrItems fuel (c2 :: r2) with
            | some (xs, r3) => some (.jarr xs, r3)
            | none => none
        | [] => none
      else if c = lbraceChar then
        match skipWs rest with
        | c2 :: r2 =>
          if c2 = rbraceChar then some (.jobj [], r2)
          else
            match parseObjItems fuel (c2 :: r2) with
            | some (kvs, r3) => some (.jobj kvs, r3)
            | none => none
        | [] => none
      else
        match parseIntLit (c :: rest) with
        | some (n, r) => some (.jint n, r)
        | none => none

def parseArrItems : Nat → List Char → Option (List JVal × List Char)
  | 0, _ => none
  | fuel + 1, cs =>
    match parseJVal fuel cs with
    | none => none
    | some (v, r) =>
      match skipWs r with
      | [] => none
      | c :: r2 =>
        if c = ',' then
          match parseArrItems fuel r2 with
          | some (xs, r3) => some (v :: xs, r3)
          | none => none
        else if c = rbrack then some ([v], r2)
        else none

def parseObjItems : Nat → List Char → Option (List (String × JVal) × List Char)
  | 0, _ => none
  | fuel + 1, cs =>
    match skipWs cs with
    | [] => none
    | c :: rest =>
      if c = quoteChar then
        match parseStrAux rest with
        | none => none
        | some (k, r) =>
          match skipWs r with
          | [] => none
          | c2 :: r2 =>
            if c2 = ':' then
              match parseJVal fuel r2 with
              | none => none
              | some (v, r3) =>
                match skipWs r3 with
                | [] => none
                | c3 :: r4 =>
                  if c3 = ',' then
                    match parseObjItems fuel r4 with
                    | some (kvs, r5) => some ((String.mk k, v) :: kvs, r5)
                    | none => none
                  else if c3 = rbraceChar then some ([(String.mk k, v)], r4)
                  else none
            else none
      else none

end

abbrev JsonObj := List (String × Value)

def jvalToValue : JVal → Option Value
  | .jstr s => some (.str s)
  | .jint n => some (.int n)
  | _ => none

def jvalToObj : JVal → Option JsonObj
  | .jobj kvs => kvs.mapM (fun p => (jvalToValue p.2).map (fun v => (p.1, v)))
  | _ => none

/-- ijson.items(content, "item"): stream the members of a top-level JSON
array; fails on any non-array document, trailing garbage, or values
outside the modelled fragment. -/
def ijsonItems (content : String) : Option (List JsonObj) :=
  match parseJVal (content.data.length + 2) content.data with
  | some (.jarr xs, rest) =>
    if skipWs rest = [] then xs.mapM jvalToObj else none
  | _ => none

/-- pd.DataFrame built from a chunk of parsed JSON objects.  The modelled
fragment (enforced by theorem hypotheses) has every object carrying the
same keys in the same order, so the columns are the keys of the first
object; values keep their JSON types, so no string re-inference occurs. -/
def mkDfFromObjs (objs : List JsonObj) : DataFrame :=
  let cols := (objs.headD []).map Prod.fst
  { cols := cols,
    rows := objs.map (fun o => cols.map (fun k => (o.lookup k).getD (.str ""))) }

/-- Grouping loop of process_json_chunk (src/src/obfuscator.py lines
62-74): append each item to the current chunk and flush when the length
equals chunk_size exactly; flush the final partial chunk if nonempty.
With chunk_size ≤ 0 the length test never fires and a single chunk holding
every item is flushed at the end. -/
def jsonLoopChunks (chunk_size : Int) :
    List JsonObj → List JsonObj → List (List JsonObj)
  | acc, [] => if acc.isEmpty then [] else [acc]
  | acc, o :: os =>
    if ((acc ++ [o]).length : Int) = chunk_size then
      (acc ++ [o]) :: jsonLoopChunks chunk_size [] os
    else jsonLoopChunks chunk_size (acc ++ [o]) os

/-- process_json_chunk (src/src/obfuscator.py lines 46-74). -/
def process_json_chunk (file_content : String) (fields_list : List String)
    (chunk_size : Int) : Except PyError String :=
  match ijsonItems file_content with
  | none => .error (.exception "ijson parse error")
  | some objs =>
    runChunks fields_list
      ((jsonLoopChunks chunk_size [] objs).map mkDfFromObjs) true ""

/-- process_parquet_chunk (src/src/obfuscator.py lines 77-99):
pq.ParquetFile(file_content) receives the content string, which pyarrow
interprets as a filesystem path.  The pipeline hands it the file data
itself (read_s3_file returns decoded text, never a path), so in the
deployed flow the open always fails before any chunking; modelled as the
no-such-file error, whose exact message and class are representative
(were the string to name an existing non-parquet file, pyarrow would
raise ArrowInvalid instead — still independent of the chunk size, which
is all the theorem on this path uses). -/
def process_parquet_chunk (file_content : String) (_fields_list : List String)
    (_chunk_size : Int) : Except PyError String :=
  .error (.exception ("Failed to open local file '" ++ file_content ++ "'"))

def supportedFormats : List String := ["csv", "json", "parquet"]

/-- convert_str_file_content_to_obfuscated_csv (src/src/obfuscator.py
lines 102-136).  The chunk_size ≤ 0 guard on the csv path models the
pandas read_csv validation of its chunksize argument. -/
def convert_str_file_content_to_obfuscated_csv (file_content : String)
    (fields_list : List String) (file_type : String) (chunk_size : Int) :
    Except PyError String :=
  if file_type ∉ supportedFormats then
    .error (.valueError ("Sorry that " ++ file_type ++ " is not supported. " ++
      "This tool currently only support csv/json/parquet"))
  else if file_type = "csv" then
    if chunk_size ≤ 0 then
      .error (.valueError "chunksize must be a positive integer")
    else
      match parseCsv file_content with
      | none => .error (.valueError "No columns to parse from file")
      | some (cols, rows) =>
        runChunks fields_list
          ((chunkList chunk_size.toNat rows).map (mkDf cols)) true ""
  else if file_type = "json" then
    process_json_chunk file_content fields_list chunk_size
  else
    process_parquet_chunk file_content fields_list chunk_size

/-! CSV to JSON/Parquet conversion (convert_csv_to_output_format,
src/src/obfuscator.py lines 139-163).  DataFrame.to_json(orient="records",
lines=True) writes one JSON object per record, fields in column order, no
spaces, records separated by a newline with no trailing newline, and
escapes the forward slash as ujson does. -/

def escChar (c : Char) : List Char :=
  if c = quoteChar then [backslashChar, quoteChar]
  else if c = backslashChar then [backslashChar, backslashChar]
  else if c = '/' then [backslashChar, '/']
  else if c = '\n' then [backslashChar, 'n']
  else [c]

def jsonEscape (s : String) : String :=
  String.mk (s.data.foldr (fun c acc => escChar c ++ acc) [])

def sQuote (s : String) : String :=
  String.mk [quoteChar] ++ s ++ String.mk [quoteChar]

def renderJsonValue : Value → String
  | .int n => toString n
  | .str s => sQuote (jsonEscape s)

def renderJsonRecord (cols : List String) (r : List Value) : String :=
  String.mk [lbraceChar] ++
    myIntercalate ","
      ((cols.zip r).map (fun p =>
        sQuote (jsonEscape p.1) ++ ":" ++ renderJsonValue p.2)) ++
    String.mk [rbraceChar]

def dfToJson (df : DataFrame) : String :=
  myIntercalate "\n" (df.rows.map (renderJsonRecord df.cols))

/-- DataFrame.to_parquet produces opaque binary bytes that no claim ever
inspects; modelled as an injective deterministic rendering of the table. -/
def dfToParquet (df : DataFrame) : String :=
  "PARQUET1" ++ headerLine df.cols ++ joinStrings (df.rows.map rowLine)

def convert_csv_to_output_format (csv_bytes : String)
    (output_format : String) : Except PyError String :=
  match parseCsv csv_bytes with
  | none => .error (.valueError "No columns to parse from file")
  | some (cols, rows) =>
    if output_format = "json" then .ok (dfToJson (mkDf cols rows))
    else if output_format = "parquet" then .ok (dfToParquet (mkDf cols rows))
    else
      .error (.valueError ("Unsupported format." ++
        " Only 'json' and 'parquet' are allowed."))

/-- Body of obfuscate_file before its try/except wrapping
(src/src/obfuscator.py lines 185-197). -/
def obfuscate_file_body (file_content : String) (fields_list : List String)
    (file_type : String) (output_format : Option String) (chunk_size : Int) :
    Except PyError String :=
  match convert_str_file_content_to_obfuscated_csv
      file_content fields_list (pyLower file_type) chunk_size with
  | .error e => .error e
  | .ok output =>
    match output_format with
    | none =>
      if pyLower file_type ≠ "csv" then
        convert_csv_to_output_format output (pyLower file_type)
      else .ok output
    | some ofmt =>
      if ofmt ∉ supportedFormats then
        .error (.valueError ("Sorry that " ++ ofmt ++ " is not supported. " ++
          "This tool currently only support " ++ "csv/json/parquet"))
      else if ofmt ≠ "csv" then convert_csv_to_output_format output ofmt
      else .ok output

/-- The except chain of obfuscate_file (lines 198-203): KeyError and
ValueError are re-raised with a stage label and the same class, anything
else becomes a generic Exception. -/
def wrapObfuscateError : PyError → PyError
  | .keyError m =>
    .keyError ("Error processing data chunk: " ++ pyStr (.keyError m))
  | .valueError m => .valueError ("Error reading the file: " ++ m)
  | .exception m =>
    .exception ("Unexpected error in obfuscating file: " ++ m)

/-- obfuscate_file (src/src/obfuscator.py lines 166-203). -/
def obfuscate_file (file_content : String) (fields_list : List String)
    (file_type : String := "csv") (output_format : Option String := none)
    (chunk_size : Int := 5000) : Except PyError String :=
  match obfuscate_file_body file_content fields_list file_type
      output_format chunk_size with
  | .ok b => .ok b
  | .error e => .error (wrapObfuscateError e)

/-! External collaborators (src/src/utils.py) over a simulated object
store: a list of (bucket, key, content) triples.  Binary transport and
authentication are outside the model. -/

abbrev S3Store := List (String × String × String)

def s3Lookup (s3 : S3Store) (bucket key : String) : Option String :=
  (s3.find? (fun t => t.1 == bucket && t.2.1 == key)).map (fun t => t.2.2)

def s3Put (s3 : S3Store) (bucket key content : String) : S3Store :=
  s3.filter (fun t => !(t.1 == bucket && t.2.1 == key)) ++
    [(bucket, key, content)]

/-- file_key.split(".")[-1].lower() -/
def fileExtension (key : String) : String :=
  pyLower ((splitString '.' key).getLastD "")

/-- read_s3_file (src/src/utils.py lines 7-39).  The get_object call sits
outside the try block, so a missing key surfaces as the raw boto3
ClientError (a generic Exception here).  For a parquet key the source
converts the stored table to CSV text with pq.read_table(...).to_csv;
the simulated store is modelled as already holding that CSV text. -/
def read_s3_file (s3 : S3Store) (s3_bucket file_key : String) :
    Except PyError (String × String) :=
  match s3Lookup s3 s3_bucket file_key with
  | none =>
    .error (.exception
      "An error occurred (NoSuchKey) when calling the GetObject operation: The specified key does not exist.")
  | some content =>
    let ext := fileExtension file_key
    if ext = "csv" ∨ ext = "json" then .ok (content, ext)
    else if ext = "parquet" then .ok (content, ext)
    else .error (.valueError ("Unsupported file type: " ++ ext))

/-- write_s3_file (src/src/utils.py lines 42-76). -/
def write_s3_file (s3 : S3Store) (s3_bucket file_key content : String) :
    Except PyError (S3Store × String) :=
  if fileExtension file_key = "csv" ∨ fileExtension file_key = "json" ∨
      fileExtension file_key = "parquet" then
    .ok (s3Put s3 s3_bucket file_key content,
      file_key ++ " has been successfully uploaded to s3 bucket " ++ s3_bucket)
  else
    .error (.valueError ("ValueError: " ++ "Unsupported file type: " ++
      fileExtension file_key))

def jvalToFields : JVal → Option (List String)
  | .jarr xs =>
    xs.mapM (fun x =>
      match x with
      | .jstr s => some s
      | _ => none)
  | _ => none

/-- s3_url.split("/", 1) after stripping "s3://": the part before the
first slash and the rest; none when no slash remains, in which case the
tuple unpacking in the source raises ValueError. -/
def splitFirstSlash (s : String) : Option (String × String) :=
  match splitString '/' s with
  | [] => none
  | [_] => none
  | a :: rest => some (a, myIntercalate "/" rest)

/-- json_input_handler (src/src/utils.py lines 79-112): parse the
descriptor, check both required keys, split the URL into bucket and key,
and return the field list verbatim.  Malformed JSON and the missing-key
ValueError both surface as ValueError "Invalid JSON input" through the
except chain.  Descriptors whose pii_fields is not a list of strings fall
outside the modelled domain and are represented by the catch-all generic
Exception of the source. -/
def json_input_handler (json_input : String) :
    Except PyError (String × String × List String) :=
  match parseJVal (json_input.data.length + 2) json_input.data with
  | some (.jobj kvs, rest) =>
    if skipWs rest ≠ [] then .error (.valueError "Invalid JSON input")
    else
      match kvs.lookup "file_to_obfuscate", kvs.lookup "pii_fields" with
      | some (.jstr url), some pii =>
        match splitFirstSlash (strReplace url "s3://" "") with
        | none => .error (.valueError "Invalid JSON input")
        | some (b, k) =>
          match jvalToFields pii with
          | some fl => .ok (b, k, fl)
          | none =>
            .error (.exception
              "Unexpected error: pii_fields outside the modelled domain")
      | some _, some _ =>
        .error (.exception
          "Unexpected error: descriptor outside the modelled domain")
      | _, _ => .error (.valueError "Invalid JSON input")
  | some _ => .error (.valueError "Invalid JSON input")
  | none => .error (.valueError "Invalid JSON input")

/-- Result of handle_file_obfuscation: either the confirmation message of
a persisted object, or the in-memory buffer. -/
inductive HandleOut where
  | savedMsg (s : String)
  | buffer (b : String)
deriving DecidableEq, Repr

/-- Body of handle_file_obfuscation before its try/except wrapping
(src/src/main.py lines 34-55). -/
def handle_file_obfuscation_body (s3 : S3Store) (json_string : String)
    (if_output_different_format : Bool) (output_format : Option String)
    (chunk_size : Int) (if_save_to_s3 : Bool) :
    Except PyError (S3Store × HandleOut) :=
  match json_input_handler json_string with
  | .error e => .error e
  | .ok (s3_bucket, file_key, fields_list) =>
    match read_s3_file s3 s3_bucket file_key with
    | .error e => .error e
    | .ok (content_str, file_extension) =>
      match obfuscate_file content_str fields_list file_extension
          (if if_output_different_format then output_format else none)
          chunk_size with
      | .error e => .error e
      | .ok content_bytes =>
        if if_save_to_s3 then
          match write_s3_file s3 s3_bucket
              (strReplace file_key "new_data" "processed_data")
              content_bytes with
          | .error e => .error e
          | .ok (s3out, _) =>
            .ok (s3out, .savedMsg ("Obfuscated file saved to s3://" ++
              s3_bucket ++ "/" ++
              strReplace file_key "new_data" "processed_data"))
        else .ok (s3, .buffer content_bytes)

/-- handle_file_obfuscation (src/src/main.py lines 6-57): the whole body
sits in one try block whose except clause re-raises every exception as a
generic Exception built from str(e). -/
def handle_file_obfuscation (s3 : S3Store) (json_string : String)
    (if_output_different_format : Bool := false)
    (output_format : Option String := none) (chunk_size : Int := 5000)
    (if_save_to_s3 : Bool := true) : Except PyError (S3Store × HandleOut) :=
  match handle_file_obfuscation_body s3 json_string
      if_output_different_format output_format chunk_size if_save_to_s3 with
  | .ok r => .ok r
  | .error e => .error (.exception (pyStr e))

/-! Structural lemmas about the chunk loop and the masking run. -/

/-- CSV text the loop appends for a list of chunks, first flag given. -/
def renderAllChunks (fields : List String) : List DataFrame → Bool → String
  | [], _ => ""
  | df :: dfs, first =>
    dfToCsv (maskRun df fields).1 first ++ renderAllChunks fields dfs false

theorem runChunks_eq_ok (fields : List String) (dfs : List DataFrame)
    (h : ∀ df ∈ dfs, (maskRun df fields).2 = none) :
    ∀ (first : Bool) (buf : String),
      runChunks fields dfs first buf =
        .ok (buf ++ renderAllChunks fields dfs first) := by
  induction dfs with
  | nil =>
    intro first buf
    simp [runChunks, renderAllChunks]
  | cons df dfs ih =>
    intro first buf
    have hdf := h df (List.mem_cons_self df dfs)
    have hrest : ∀ d ∈ dfs, (maskRun d fields).2 = none :=
      fun d hd => h d (List.mem_cons_of_mem df hd)
    simp only [runChunks, process_df_chunk, obfuscate_eq_ok_of_none hdf]
    rw [ih hrest false (buf ++ dfToCsv (maskRun df fields).1 first)]
    simp only [renderAllChunks]
    rw [String.append_assoc]

theorem maskRun_cols (fields : List String) :
    ∀ df : DataFrame, (maskRun df fields).1.cols = df.cols := by
  induction fields with
  | nil => intro df; rfl
  | cons f fs ih =>
    intro df
    by_cases hfc : f ∈ df.cols
    · simp only [maskRun, if_pos hfc]
      rw [ih (setCol df f maskValue)]
      rfl
    · simp [maskRun, hfc]

theorem maskRun_rows_length (fields : List String) :
    ∀ df : DataFrame, (maskRun df fields).1.rows.length = df.rows.length := by
  induction fields with
  | nil => intro df; rfl
  | cons f fs ih =>
    intro df
    by_cases hfc : f ∈ df.cols
    · simp only [maskRun, if_pos hfc]
      rw [ih (setCol df f maskValue)]
      simp [setCol]
    · simp [maskRun, hfc]

theorem rect_setCol (df : DataFrame) (f : String) (v : Value)
    (hr : rect df) : rect (setCol df f v) := by
  intro r hrr
  simp only [setCol, List.mem_map] at hrr
  obtain ⟨r₀, hr₀, hre⟩ := hrr
  rw [← hre]
  simp [setCol, hr r₀ hr₀]

theorem maskRun_rect (fields : List String) :
    ∀ df : DataFrame, rect df → rect (maskRun df fields).1 := by
  induction fields with
  | nil => intro df hr; exact hr
  | cons f fs ih =>
    intro df hr
    by_cases hfc : f ∈ df.cols
    · simp only [maskRun, if_pos hfc]
      exact ih _ (rect_setCol df f maskValue hr)
    · simpa [maskRun, hfc] using hr

theorem getD_range_map (width j : Nat) (h : j < width) (g : Nat → α) (d : α) :
    ((List.range width).map g).getD j d = g j := by
  rw [getD_eq_getElem _ _ (by simpa using h)]
  simp

theorem rect_mkDf (C : List String) (rs : List (List String)) :
    rect (mkDf C rs) := by
  intro r hrr
  simp only [mkDf, List.mem_map] at hrr
  obtain ⟨r₀, _, hre⟩ := hrr
  rw [← hre]
  simp [mkDf]

theorem mkDf_cols (C : List String) (rs : List (List String)) :
    (mkDf C rs).cols = C := rfl

theorem mkDf_rows_getD (C : List String) (rs : List (List String)) (i : Nat)
    (hi : i < rs.length) :
    (mkDf C rs).rows.getD i [] =
      (List.range C.length).map (fun j =>
        inferCell (colIsInt rs j) ((rs.getD i []).getD j "")) := by
  simp only [mkDf]
  exact getD_map _ _ _ [] hi

theorem obfuscate_error_of_some {df : DataFrame} {fields : List String}
    {e : PyError} (h : (maskRun df fields).2 = some e) :
    obfuscate_fields_in_df df fields = .error e := by
  unfold obfuscate_fields_in_df
  cases hm : maskRun df fields with
  | mk d o =>
    rw [hm] at h
    simp only at h
    subst h
    rfl

theorem runChunks_first_error (fields : List String) (df : DataFrame)
    (dfs : List DataFrame) (e : PyError)
    (h : (maskRun df fields).2 = some e) :
    runChunks fields (df :: dfs) true "" = .error e := by
  simp [runChunks, process_df_chunk, obfuscate_error_of_some h]

/-- First field of the list absent from the columns, the one whose
KeyError aborts the loop. -/
def firstMissing (fields : List String) (C : List String) : Option String :=
  fields.find? (fun f => decide (f ∉ C))

theorem maskRun_missing (fields : List String) :
    ∀ (df : DataFrame) (bad : String),
      firstMissing fields df.cols = some bad →
      (maskRun df fields).2 = some (.keyError (fieldNotFoundMsg bad)) := by
  induction fields with
  | nil =>
    intro df bad h
    simp [firstMissing] at h
  | cons f fs ih =>
    intro df bad h
    by_cases hfc : f ∈ df.cols
    · have hff : firstMissing fs df.cols = some bad := by
        unfold firstMissing at h ⊢
        rwa [List.find?_cons_of_neg _ (by simpa using hfc)] at h
      simp only [maskRun, if_pos hfc]
      exact ih (setCol df f maskValue) bad hff
    · have hbad : bad = f := by
        unfold firstMissing at h
        rw [List.find?_cons_of_pos _ (by simpa using hfc)] at h
        exact (Option.some_inj.mp h).symm
      subst hbad
      simp [maskRun, hfc]

theorem allPresent_of_firstMissing_none {fields C : List String}
    (h : firstMissing fields C = none) : ∀ f ∈ fields, f ∈ C := by
  intro f hf
  have := List.find?_eq_none.mp h f hf
  simpa using this

theorem chunkList_flatten (n : Nat) (hn : n ≠ 0) (l : List α) :
    (chunkList n l).flatten = l := by
  generalize hlen : l.length = N
  induction N using Nat.strong_induction_on generalizing l with
  | _ N ih =>
    match l with
    | [] => simp [chunkList_nil]
    | a :: t =>
      rw [chunkList_cons n hn a t]
      simp only [List.flatten_cons]
      have hdrop : ((a :: t).drop n).length < N := by
        rw [← hlen]
        simp only [List.length_drop, List.length_cons]
        omega
      rw [ih _ hdrop _ rfl]
      exact List.take_append_drop n (a :: t)

theorem mem_of_mem_chunkList {n : Nat} (hn : n ≠ 0) {l : List α}
    {c : List α} (hc : c ∈ chunkList n l) {x : α} (hx : x ∈ c) : x ∈ l := by
  rw [← chunkList_flatten n hn l]
  exact List.mem_flatten.mpr ⟨c, hc, hx⟩

theorem chunkList_chunks_ne_nil (n : Nat) (hn : n ≠ 0) (l : List α) :
    ∀ c ∈ chunkList n l, c ≠ [] := by
  generalize hlen : l.length = N
  induction N using Nat.strong_induction_on generalizing l with
  | _ N ih =>
    match l with
    | [] => simp [chunkList_nil]
    | a :: t =>
      rw [chunkList_cons n hn a t]
      intro c hc
      rcases List.mem_cons.mp hc with hh | ht
      · subst hh
        cases n with
        | zero => exact absurd rfl hn
        | succ m => simp [List.take_cons]
      · have hdrop : ((a :: t).drop n).length < N := by
          rw [← hlen]
          simp only [List.length_drop, List.length_cons]
          omega
        exact ih _ hdrop _ rfl c ht

theorem chunkList_ne_nil (n : Nat) (hn : n ≠ 0) (a : α) (t : List α) :
    chunkList n (a :: t) ≠ [] := by
  rw [chunkList_cons n hn a t]
  exact List.cons_ne_nil _ _

theorem jsonLoopChunks_flatten (cs : Int) :
    ∀ (os acc : List JsonObj), (jsonLoopChunks cs acc os).flatten = acc ++ os := by
  intro os
  induction os with
  | nil =>
    intro acc
    by_cases h : acc.isEmpty
    · have : acc = [] := List.isEmpty_iff.mp h
      subst this
      simp [jsonLoopChunks]
    · simp [jsonLoopChunks, h]
  | cons o os ih =>
    intro acc
    simp only [jsonLoopChunks]
    by_cases hlen : ((acc ++ [o]).length : Int) = cs
    · rw [if_pos hlen]
      simp only [List.flatten_cons, ih []]
      simp
    · rw [if_neg hlen, ih (acc ++ [o])]
      simp

theorem jsonLoop_mem (cs : Int) (os acc : List JsonObj)
    (ch : List JsonObj) (hch : ch ∈ jsonLoopChunks cs acc os)
    (x : JsonObj) (hx : x ∈ ch) : x ∈ acc ++ os := by
  rw [← jsonLoopChunks_flatten cs os acc]
  exact List.mem_flatten.mpr ⟨ch, hch, hx⟩

theorem jsonLoop_chunks_ne_nil (cs : Int) :
    ∀ (os acc : List JsonObj), ∀ ch ∈ jsonLoopChunks cs acc os, ch ≠ [] := by
  intro os
  induction os with
  | nil =>
    intro acc ch hch
    by_cases h : acc.isEmpty
    · simp [jsonLoopChunks, h] at hch
    · simp only [jsonLoopChunks, if_neg h] at hch
      have : ch = acc := by simpa using hch
      subst this
      exact fun hc => h (by simp [hc])
  | cons o os ih =>
    intro acc ch hch
    simp only [jsonLoopChunks] at hch
    by_cases hlen : ((acc ++ [o]).length : Int) = cs
    · rw [if_pos hlen] at hch
      rcases List.mem_cons.mp hch with hh | ht
      · subst hh
        simp
      · exact ih [] ch ht
    · rw [if_neg hlen] at hch
      exact ih (acc ++ [o]) ch hch

theorem jsonLoop_ne_nil (cs : Int) :
    ∀ (os acc : List JsonObj), acc ≠ [] ∨ os ≠ [] →
      jsonLoopChunks cs acc os ≠ [] := by
  intro os
  induction os with
  | nil =>
    intro acc h
    have hacc : acc ≠ [] := by
      rcases h with h | h
      · exact h
      · exact absurd rfl h
    simp [jsonLoopChunks, hacc]
  | cons o os ih =>
    intro acc _
    simp only [jsonLoopChunks]
    by_cases hlen : ((acc ++ [o]).length : Int) = cs
    · rw [if_pos hlen]
      exact List.cons_ne_nil _ _
    · rw [if_neg hlen]
      exact ih (acc ++ [o]) (Or.inl (by simp))

/-- With a non-positive chunk_size the equality test of the grouping loop
never fires, so every item lands in one final chunk. -/
theorem jsonLoop_nonpos (cs : Int) (hcs : cs ≤ 0) :
    ∀ (os acc : List JsonObj), acc ≠ [] →
      jsonLoopChunks cs acc os = [acc ++ os] := by
  intro os
  induction os with
  | nil =>
    intro acc hacc
    simp [jsonLoopChunks, hacc]
  | cons o os ih =>
    intro acc _
    simp only [jsonLoopChunks]
    have hlen : ¬(((acc ++ [o]).length : Int) = cs) := by
      have : 1 ≤ (acc ++ [o]).length := by simp
      omega
    rw [if_neg hlen, ih (acc ++ [o]) (by simp)]
    simp

/-- Masked rows of a CSV chunk, described pointwise: listed columns carry
the mask, others the cell inferred with the dtype of this chunk. -/
theorem maskRun_mkDf_rows (C : List String) (fields : List String)
    (rs : List (List String)) (hC : C.Nodup) (hf : ∀ f ∈ fields, f ∈ C) :
    (maskRun (mkDf C rs) fields).1.rows =
      rs.map (fun r => (List.range C.length).map (fun j =>
        if C.getD j "" ∈ fields then maskValue
        else inferCell (colIsInt rs j) (r.getD j ""))) := by
  have hrect := rect_mkDf C rs
  obtain ⟨h1, h2, h3, h4⟩ := maskRun_ok fields (mkDf C rs) hC hrect hf
  apply List.ext_getElem
  · rw [h3]
    simp [mkDf]
  · intro i hi1 hi2
    have hilen : i < rs.length := by simpa using hi2
    apply List.ext_getElem
    · have hre := maskRun_rect fields (mkDf C rs) hrect
      rw [hre _ (List.getElem_mem hi1), maskRun_cols]
      simp [mkDf]
    · intro j hj1 hj2
      have hjC : j < C.length := by simpa using hj2
      have hpt := h4 i (by simp [mkDf, hilen]) j
      unfold cellAt at hpt
      rw [getD_eq_getElem _ _ hi1, getD_eq_getElem _ _ hj1] at hpt
      rw [mkDf_rows_getD C rs i hilen] at hpt
      rw [getD_range_map C.length j hjC] at hpt
      simp only [List.getElem_map, List.getElem_range]
      rw [hpt, getD_eq_getElem _ _ hilen]
      by_cases hmem : C.getD j "" ∈ fields
      · rw [if_pos ⟨hmem, hjC⟩, if_pos hmem]
      · rw [if_neg (fun hc => hmem hc.1), if_neg hmem]

theorem mkDfFromObjs_cols (K : List String) (chunk : List JsonObj)
    (hne : chunk ≠ []) (hk : ∀ o ∈ chunk, o.map Prod.fst = K) :
    (mkDfFromObjs chunk).cols = K := by
  match chunk with
  | [] => exact absurd rfl hne
  | o :: rest => simpa [mkDfFromObjs] using hk o (List.mem_cons_self o rest)

theorem rect_mkDfFromObjs (chunk : List JsonObj) : rect (mkDfFromObjs chunk) := by
  intro r hrr
  simp only [mkDfFromObjs, List.mem_map] at hrr
  obtain ⟨o, _, hre⟩ := hrr
  rw [← hre]
  simp [mkDfFromObjs]

theorem mkDfFromObjs_rows_getD (chunk : List JsonObj) (i : Nat)
    (hi : i < chunk.length) :
    (mkDfFromObjs chunk).rows.getD i [] =
      (mkDfFromObjs chunk).cols.map
        (fun k => ((chunk.getD i []).lookup k).getD (.str "")) := by
  simp only [mkDfFromObjs]
  exact getD_map _ _ _ [] hi

/-- Masked rows of a JSON chunk, described pointwise: listed keys carry the
mask, others the JSON value looked up per object (no re-inference). -/
theorem maskRun_mkDfFromObjs_rows (K : List String) (fields : List String)
    (chunk : List JsonObj) (hK : K.Nodup) (hf : ∀ f ∈ fields, f ∈ K)
    (hne : chunk ≠ []) (hk : ∀ o ∈ chunk, o.map Prod.fst = K) :
    (maskRun (mkDfFromObjs chunk) fields).1.rows =
      chunk.map (fun o => (List.range K.length).map (fun j =>
        if K.getD j "" ∈ fields then maskValue
        else (o.lookup (K.getD j "")).getD (.str ""))) := by
  have hcols := mkDfFromObjs_cols K chunk hne hk
  have hrect := rect_mkDfFromObjs chunk
  obtain ⟨h1, h2, h3, h4⟩ := maskRun_ok fields (mkDfFromObjs chunk)
    (by rw [hcols]; exact hK) hrect
    (by rw [hcols]; exact hf)
  apply List.ext_getElem
  · rw [h3]
    simp [mkDfFromObjs]
  · intro i hi1 hi2
    have hilen : i < chunk.length := by simpa using hi2
    apply List.ext_getElem
    · have hre := maskRun_rect fields (mkDfFromObjs chunk) hrect
      rw [hre _ (List.getElem_mem hi1), maskRun_cols, hcols]
      simp
    · intro j hj1 hj2
      have hjK : j < K.length := by simpa using hj2
      have hpt := h4 i (by simp [mkDfFromObjs, hilen]) j
      rw [hcols] at hpt
      unfold cellAt at hpt
      rw [getD_eq_getElem _ _ hi1, getD_eq_getElem _ _ hj1] at hpt
      rw [mkDfFromObjs_rows_getD chunk i hilen, hcols] at hpt
      rw [getD_map _ _ _ "" hjK] at hpt
      simp only [List.getElem_map, List.getElem_range]
      rw [hpt, getD_eq_getElem _ _ hilen]
      by_cases hmem : K.getD j "" ∈ fields
      · rw [if_pos ⟨hmem, hjK⟩, if_pos hmem]
      · rw [if_neg (fun hc => hmem hc.1), if_neg hmem]

/-- Row text the loop contributes after the header: per chunk, the masked
rows rendered as CSV lines. -/
def chunkRowsCsv (fields : List String) (dfs : List DataFrame) : String :=
  joinStrings (dfs.map (fun df =>
    joinStrings ((maskRun df fields).1.rows.map rowLine)))

theorem renderAllChunks_struct (fields : List String) (C : List String) :
    ∀ (dfs : List DataFrame), (∀ df ∈ dfs, df.cols = C) → ∀ first : Bool,
      renderAllChunks fields dfs first =
        (if dfs.isEmpty then "" else if first then headerLine C else "") ++
          chunkRowsCsv fields dfs := by
  intro dfs
  induction dfs with
  | nil =>
    intro _ first
    simp [renderAllChunks, chunkRowsCsv, joinStrings]
  | cons df dfs ih =>
    intro h first
    have hdf : df.cols = C := h df (List.mem_cons_self df dfs)
    have hrest : ∀ d ∈ dfs, d.cols = C :=
      fun d hd => h d (List.mem_cons_of_mem df hd)
    simp only [renderAllChunks, chunkRowsCsv, List.map_cons, joinStrings]
    rw [ih hrest false]
    simp only [dfToCsv, maskRun_cols, hdf, List.isEmpty_cons, ite_self,
      Bool.false_eq_true, if_false, String.empty_append]
    rw [String.append_assoc]
    rfl

theorem runChunks_full (fields C : List String) (dfs : List DataFrame)
    (hcols : ∀ df ∈ dfs, df.cols = C)
    (hmask : ∀ df ∈ dfs, (maskRun df fields).2 = none)
    (hne : dfs ≠ []) :
    runChunks fields dfs true "" =
      .ok (headerLine C ++ chunkRowsCsv fields dfs) := by
  rw [runChunks_eq_ok fields dfs hmask true ""]
  rw [renderAllChunks_struct fields C dfs hcols true]
  have hemp : dfs.isEmpty = false := by
    cases dfs with
    | nil => exact absurd rfl hne
    | cons a t => rfl
  rw [hemp]
  simp

theorem convert_str_csv (content : String) (fields : List String) (cs : Int)
    (C : List String) (rows : List (List String)) (hcs : 1 ≤ cs)
    (hp : parseCsv content = some (C, rows)) :
    convert_str_file_content_to_obfuscated_csv content fields "csv" cs =
      runChunks fields ((chunkList cs.toNat rows).map (mkDf C)) true "" := by
  unfold convert_str_file_content_to_obfuscated_csv
  rw [if_neg (by decide), if_pos rfl, if_neg (by omega), hp]

theorem convert_str_json (content : String) (fields : List String) (cs : Int)
    (objs : List JsonObj) (hit : ijsonItems content = some objs) :
    convert_str_file_content_to_obfuscated_csv content fields "json" cs =
      runChunks fields
        ((jsonLoopChunks cs [] objs).map mkDfFromObjs) true "" := by
  unfold convert_str_file_content_to_obfuscated_csv
  rw [if_neg (by decide), if_neg (by decide), if_pos rfl]
  unfold process_json_chunk
  rw [hit]

theorem convert_str_parquet (content : String) (fields : List String)
    (cs : Int) :
    convert_str_file_content_to_obfuscated_csv content fields "parquet" cs =
      .error (.exception ("Failed to open local file '" ++ content ++ "'")) := by
  unfold convert_str_file_content_to_obfuscated_csv
  rw [if_neg (by decide), if_neg (by decide), if_neg (by decide)]
  rfl

theorem obfuscate_file_of_body_error (content : String)
    (fields : List String) (ft : String) (tgt : Option String) (cs : Int)
    (e : PyError)
    (h : obfuscate_file_body content fields ft tgt cs = .error e) :
    obfuscate_file content fields ft tgt cs =
      .error (wrapObfuscateError e) := by
  unfold obfuscate_file
  rw [h]

theorem obfuscate_file_of_body_ok (content : String) (fields : List String)
    (ft : String) (tgt : Option String) (cs : Int) (b : String)
    (h : obfuscate_file_body content fields ft tgt cs = .ok b) :
    obfuscate_file content fields ft tgt cs = .ok b := by
  unfold obfuscate_file
  rw [h]

/-- Per-column dtype stability under re-chunking: every cell of the column
is integer-like, or none is, so each chunk infers the same dtype as the
whole table. -/
def typeStable (width : Nat) (rows : List (List String)) : Prop :=
  ∀ j < width, (∀ r ∈ rows, intLike (r.getD j "") = true) ∨
    (∀ r ∈ rows, intLike (r.getD j "") = false)

instance (width : Nat) (rows : List (List String)) :
    Decidable (typeStable width rows) := by
  unfold typeStable
  infer_instance

theorem colIsInt_stable (rows c : List (List String)) (j : Nat)
    (hsub : ∀ r ∈ c, r ∈ rows) (hne : c ≠ [])
    (hstj : (∀ r ∈ rows, intLike (r.getD j "") = true) ∨
      (∀ r ∈ rows, intLike (r.getD j "") = false)) :
    colIsInt c j = colIsInt rows j := by
  rcases hstj with hall | hnone
  · have h1 : colIsInt rows j = true := by
      simp only [colIsInt, List.all_eq_true]
      exact hall
    have h2 : colIsInt c j = true := by
      simp only [colIsInt, List.all_eq_true]
      exact fun r hr => hall r (hsub r hr)
    rw [h1, h2]
  · match c with
    | r₀ :: c' =>
      have h1 : colIsInt rows j = false := by
        simp only [colIsInt]
        rw [List.all_eq_false]
        exact ⟨r₀, hsub r₀ (List.mem_cons_self r₀ c'),
          by rw [hnone r₀ (hsub r₀ (List.mem_cons_self r₀ c'))]; decide⟩
      have h2 : colIsInt (r₀ :: c') j = false := by
        simp only [colIsInt]
        rw [List.all_eq_false]
        exact ⟨r₀, List.mem_cons_self r₀ c',
          by rw [hnone r₀ (hsub r₀ (List.mem_cons_self r₀ c'))]; decide⟩
      rw [h1, h2]

theorem joinStrings_append (xs ys : List String) :
    joinStrings (xs ++ ys) = joinStrings xs ++ joinStrings ys := by
  induction xs with
  | nil => simp [joinStrings]
  | cons x xs ih =>
    simp only [List.cons_append, joinStrings]
    rw [show xs.append ys = xs ++ ys from rfl, ih, String.append_assoc]

theorem joinStrings_flatten (g : α → String) (chunks : List (List α)) :
    joinStrings (chunks.map (fun c => joinStrings (c.map g))) =
      joinStrings (chunks.flatten.map g) := by
  induction chunks with
  | nil => rfl
  | cons c chunks ih =>
    simp only [List.map_cons, joinStrings, List.flatten_cons, List.map_append]
    rw [ih, joinStrings_append]

/-- Rendering of one masked row when every column dtype is stable under
re-chunking: the dtype of the whole table applies. -/
def stableRowLine (C fields : List String) (rows : List (List String))
    (r : List String) : String :=
  rowLine ((List.range C.length).map (fun j =>
    if C.getD j "" ∈ fields then maskValue
    else inferCell (colIsInt rows j) (r.getD j "")))

theorem chunkRowsCsv_csv_stable (C fields : List String)
    (rows : List (List String)) (n : Nat) (hn : n ≠ 0) (hC : C.Nodup)
    (hf : ∀ f ∈ fields, f ∈ C) (hst : typeStable C.length rows) :
    chunkRowsCsv fields ((chunkList n rows).map (mkDf C)) =
      joinStrings (rows.map (stableRowLine C fields rows)) := by
  unfold chunkRowsCsv
  rw [List.map_map]
  have hperchunk : ∀ c ∈ chunkList n rows,
      joinStrings ((maskRun (mkDf C c) fields).1.rows.map rowLine) =
        joinStrings (c.map (stableRowLine C fields rows)) := by
    intro c hc
    rw [maskRun_mkDf_rows C fields c hC hf, List.map_map]
    congr 1
    apply List.map_congr_left
    intro r hr
    unfold stableRowLine
    simp only [Function.comp]
    congr 1
    apply List.map_congr_left
    intro j hj
    by_cases hmem : C.getD j "" ∈ fields
    · rw [if_pos hmem, if_pos hmem]
    · rw [if_neg hmem, if_neg hmem]
      congr 1
      exact colIsInt_stable rows c j
        (fun r' hr' => mem_of_mem_chunkList hn hc hr')
        (List.ne_nil_of_mem hr) (hst j (List.mem_range.mp hj))
  calc joinStrings ((chunkList n rows).map
        (fun c => joinStrings ((maskRun (mkDf C c) fields).1.rows.map rowLine)))
      = joinStrings ((chunkList n rows).map
          (fun c => joinStrings (c.map (stableRowLine C fields rows)))) := by
        congr 1
        exact List.map_congr_left hperchunk
    _ = joinStrings ((chunkList n rows).flatten.map
          (stableRowLine C fields rows)) := joinStrings_flatten _ _
    _ = joinStrings (rows.map (stableRowLine C fields rows)) := by
        rw [chunkList_flatten n hn rows]

/-- Rendering of one masked JSON record; JSON values carry their own types
so this never depends on the chunking. -/
def stableObjLine (K fields : List String) (o : JsonObj) : String :=
  rowLine ((List.range K.length).map (fun j =>
    if K.getD j "" ∈ fields then maskValue
    else (o.lookup (K.getD j "")).getD (.str "")))

theorem chunkRowsCsv_json (K fields : List String) (objs : List JsonObj)
    (cs : Int) (hK : K.Nodup) (hf : ∀ f ∈ fields, f ∈ K)
    (hkeys : ∀ o ∈ objs, o.map Prod.fst = K) :
    chunkRowsCsv fields ((jsonLoopChunks cs [] objs).map mkDfFromObjs) =
      joinStrings (objs.map (stableObjLine K fields)) := by
  unfold chunkRowsCsv
  rw [List.map_map]
  have hperchunk : ∀ ch ∈ jsonLoopChunks cs [] objs,
      joinStrings ((maskRun (mkDfFromObjs ch) fields).1.rows.map rowLine) =
        joinStrings (ch.map (stableObjLine K fields)) := by
    intro ch hch
    have hchne : ch ≠ [] := jsonLoop_chunks_ne_nil cs objs [] ch hch
    have hchk : ∀ o ∈ ch, o.map Prod.fst = K := by
      intro o ho
      exact hkeys o (by simpa using jsonLoop_mem cs objs [] ch hch o ho)
    rw [maskRun_mkDfFromObjs_rows K fields ch hK hf hchne hchk, List.map_map]
    rfl
  calc joinStrings ((jsonLoopChunks cs [] objs).map
        (fun ch => joinStrings ((maskRun (mkDfFromObjs ch) fields).1.rows.map rowLine)))
      = joinStrings ((jsonLoopChunks cs [] objs).map
          (fun ch => joinStrings (ch.map (stableObjLine K fields)))) := by
        congr 1
        exact List.map_congr_left hperchunk
    _ = joinStrings ((jsonLoopChunks cs [] objs).flatten.map
          (stableObjLine K fields)) := joinStrings_flatten _ _
    _ = joinStrings (objs.map (stableObjLine K fields)) := by
        rw [jsonLoopChunks_flatten cs objs []]
        rfl

/-! Well-formedness of the modelled read_csv / to_csv fragment.  The
parser and renderer above model pandas exactly on unquoted rectangular
comma-separated text whose cells are either integer-like values in the
int64 range or strings inert to the numeric/boolean/na inference of the
C parser; the csvWf hypothesis of the theorems below restricts their
claims to that fragment (quoted fields, ragged rows that raise
ParserError or promote an index, float/bool/na-convertible cells and
out-of-range integers are excluded). -/

def isSpaceChar (c : Char) : Bool := c == ' ' || c == '\t'

def trimAscii (s : String) : String :=
  String.mk (((s.data.dropWhile isSpaceChar).reverse.dropWhile
    isSpaceChar).reverse)

/-- Default na marker strings of pandas read_csv; a cell equal to one of
these becomes NaN, outside the modelled fragment. -/
def naMarkers : List String :=
  ["", "#N/A", "#N/A N/A", "#NA", "-1.#IND", "-1.#QNAN", "-NaN", "-nan",
   "1.#IND", "1.#QNAN", "<NA>", "N/A", "NA", "NULL", "NaN", "None", "n/a",
   "nan", "null"]

/-- Boolean marker strings of the pandas C parser; a column of these
becomes bool dtype, outside the modelled fragment. -/
def boolMarkers : List String :=
  ["True", "TRUE", "true", "False", "FALSE", "false"]

def expPartOk : List Char → Bool
  | [] => true
  | c :: rest =>
    if c = 'e' ∨ c = 'E' then
      let rest2 := match rest with
        | '+' :: t => t
        | '-' :: t => t
        | t => t
      let p := takeDigits rest2
      !p.1.isEmpty && p.2.isEmpty
    else false

/-- Does the cell parse as a Python float (the numeric forms the pandas C
parser converts): optional sign, digits with an optional point and
exponent, or an inf/nan word. -/
def floatLike (s : String) : Bool :=
  let cs := match s.data with
    | '+' :: t => t
    | '-' :: t => t
    | t => t
  if (cs.map charLower = "inf".data) ∨ (cs.map charLower = "infinity".data) ∨
      (cs.map charLower = "nan".data) then true
  else
    let p1 := takeDigits cs
    match p1.2 with
    | '.' :: r2 =>
      let p2 := takeDigits r2
      if p1.1.isEmpty && p2.1.isEmpty then false else expPartOk p2.2
    | _ => if p1.1.isEmpty then false else expPartOk p1.2

/-- Characters that keep a string outside csv quoting and record breaks. -/
def plainStrBody (s : String) : Bool :=
  s.data.all (fun c => c != ',' && c != '\n' && c != '\r' && c != quoteChar)

def headerCellOk (s : String) : Bool :=
  !s.data.isEmpty && plainStrBody s

/-- Cell of the modelled fragment: nonempty, no separator, record break or
quote character, not an na or bool marker (raw or trimmed), and either an
integer-like value within int64 or a string that no trimming turns into a
float form. -/
def plainCell (s : String) : Bool :=
  !s.data.isEmpty && plainStrBody s &&
  !(naMarkers.contains s) && !(naMarkers.contains (trimAscii s)) &&
  !(boolMarkers.contains s) && !(boolMarkers.contains (trimAscii s)) &&
  (if intLike s then
    decide (-(2 ^ 63) ≤ parseIntStr s ∧ parseIntStr s < 2 ^ 63)
  else !floatLike (trimAscii s))

/-- Well-formed parsed CSV input: distinct plain header names and
rectangular rows of plain cells — the fragment on which the model agrees
with pandas read_csv and DataFrame.to_csv byte for byte. -/
def csvWf (C : List String) (rows : List (List String)) : Prop :=
  C.Nodup ∧ C.all headerCellOk = true ∧
  rows.all (fun r => (r.length == C.length) && r.all plainCell) = true

instance (C : List String) (rows : List (List String)) :
    Decidable (csvWf C rows) := by
  unfold csvWf
  infer_instance

/-- JSON value of the modelled fragment: any integer (rendered by str in
either an int64 or an object column, same text), or a string free of the
characters that make DataFrame.to_csv quote the field. -/
def plainJsonValue : Value → Bool
  | .int _ => true
  | .str s => plainStrBody s

/-- Well-formed parsed JSON records over the key list: distinct plain
keys and values in the modelled fragment, so the streamed rows serialize
exactly as rowLine does. -/
def jsonObjsWf (K : List String) (objs : List JsonObj) : Prop :=
  K.Nodup ∧ K.all headerCellOk = true ∧
  objs.all (fun o => o.all (fun p => plainJsonValue p.2)) = true

instance (K : List String) (objs : List JsonObj) :
    Decidable (jsonObjsWf K objs) := by
  unfold jsonObjsWf
  infer_instance

theorem convert_str_csv_invariant (content : String) (fields : List String)
    (cs₁ cs₂ : Int) (C : List String) (rows : List (List String))
    (h₁ : 1 ≤ cs₁) (h₂ : 1 ≤ cs₂)
    (hp : parseCsv content = some (C, rows)) (hC : C.Nodup)
    (hst : typeStable C.length rows) :
    convert_str_file_content_to_obfuscated_csv content fields "csv" cs₁ =
      convert_str_file_content_to_obfuscated_csv content fields "csv" cs₂ := by
  have hgen : ∀ cs : Int, 1 ≤ cs →
      convert_str_file_content_to_obfuscated_csv content fields "csv" cs =
        (match rows, firstMissing fields C with
         | [], _ => .ok ""
         | _ :: _, some bad => .error (.keyError (fieldNotFoundMsg bad))
         | _ :: _, none =>
           .ok (headerLine C ++
             joinStrings (rows.map (stableRowLine C fields rows)))) := by
    intro cs hcs
    rw [convert_str_csv content fields cs C rows hcs hp]
    have hn0 : cs.toNat ≠ 0 := by omega
    cases rows with
    | nil => simp [chunkList_nil, runChunks]
    | cons a t =>
      cases hfm : firstMissing fields C with
      | some bad =>
        rw [chunkList_cons cs.toNat hn0 a t]
        simp only [List.map_cons]
        exact runChunks_first_error fields _ _ _ (maskRun_missing fields _ bad hfm)
      | none =>
        have hf := allPresent_of_firstMissing_none hfm
        have hval := runChunks_full fields C
          ((chunkList cs.toNat (a :: t)).map (mkDf C))
          (by
            intro df hdf
            obtain ⟨c, _, rfl⟩ := List.mem_map.mp hdf
            rfl)
          (by
            intro df hdf
            obtain ⟨c, hc, rfl⟩ := List.mem_map.mp hdf
            exact (maskRun_ok fields (mkDf C c) hC (rect_mkDf C c) hf).1)
          (by
            simp only [ne_eq, List.map_eq_nil_iff]
            exact chunkList_ne_nil cs.toNat hn0 a t)
        rw [hval, chunkRowsCsv_csv_stable C fields (a :: t) cs.toNat hn0 hC hf hst]
  rw [hgen cs₁ h₁, hgen cs₂ h₂]


theorem convert_str_json_invariant (content : String) (fields : List String)
    (cs₁ cs₂ : Int) (K : List String) (objs : List JsonObj)
    (hit : ijsonItems content = some objs) (hK : K.Nodup)
    (hkeys : ∀ o ∈ objs, o.map Prod.fst = K) :
    convert_str_file_content_to_obfuscated_csv content fields "json" cs₁ =
      convert_str_file_content_to_obfuscated_csv content fields "json" cs₂ := by
  have hgen : ∀ cs : Int,
      convert_str_file_content_to_obfuscated_csv content fields "json" cs =
        (match objs, firstMissing fields K with
         | [], _ => .ok ""
         | _ :: _, some bad => .error (.keyError (fieldNotFoundMsg bad))
         | _ :: _, none =>
           .ok (headerLine K ++
             joinStrings (objs.map (stableObjLine K fields)))) := by
    intro cs
    rw [convert_str_json content fields cs objs hit]
    cases objs with
    | nil => simp [jsonLoopChunks, runChunks]
    | cons o os =>
      have hchunksne : jsonLoopChunks cs [] (o :: os) ≠ [] :=
        jsonLoop_ne_nil cs (o :: os) [] (Or.inr (List.cons_ne_nil o os))
      have hcolsK : ∀ ch ∈ jsonLoopChunks cs [] (o :: os),
          (mkDfFromObjs ch).cols = K := by
        intro ch hch
        apply mkDfFromObjs_cols K ch
          (jsonLoop_chunks_ne_nil cs (o :: os) [] ch hch)
        intro x hx
        refine hkeys x ?_
        simpa using jsonLoop_mem cs (o :: os) [] ch hch x hx
      cases hfm : firstMissing fields K with
      | some bad =>
        match hsh : jsonLoopChunks cs [] (o :: os) with
        | [] => exact absurd hsh hchunksne
        | ch :: rest =>
          simp only [List.map_cons]
          apply runChunks_first_error
          apply maskRun_missing
          rw [hcolsK ch (by rw [hsh]; exact List.mem_cons_self ch rest)]
          exact hfm
      | none =>
        have hf := allPresent_of_firstMissing_none hfm
        have hval := runChunks_full fields K
          ((jsonLoopChunks cs [] (o :: os)).map mkDfFromObjs)
          (by
            intro df hdf
            obtain ⟨ch, hch, rfl⟩ := List.mem_map.mp hdf
            exact hcolsK ch hch)
          (by
            intro df hdf
            obtain ⟨ch, hch, rfl⟩ := List.mem_map.mp hdf
            have hc := hcolsK ch hch
            exact (maskRun_ok fields (mkDfFromObjs ch)
              (by rw [hc]; exact hK)
              (rect_mkDfFromObjs ch)
              (by rw [hc]; exact hf)).1)
          (by
            simp only [ne_eq, List.map_eq_nil_iff]
            exact hchunksne)
        rw [hval, chunkRowsCsv_json K fields (o :: os) cs hK hf hkeys]
  rw [hgen cs₁, hgen cs₂]

theorem obfuscate_lift_conv_eq (content : String) (fields : List String)
    (ft ftl : String) (tgt : Option String) (cs₁ cs₂ : Int)
    (hfl : pyLower ft = ftl)
    (h : convert_str_file_content_to_obfuscated_csv content fields ftl cs₁ =
      convert_str_file_content_to_obfuscated_csv content fields ftl cs₂) :
    obfuscate_file content fields ft tgt cs₁ =
      obfuscate_file content fields ft tgt cs₂ := by
  unfold obfuscate_file obfuscate_file_body
  rw [hfl, h]

/-- C4 (amended): the masked-and-serialized output of obfuscate_file is
content-equal across chunk sizes (hence across 1, 7 and the full row
count) for a JSON source over the modelled value fragment and for a
Parquet source (whose reader fails on the text it is handed before any
chunking), and for a CSV source in the modelled fragment (csvWf: plain
rectangular cells, integer-like or inert to numeric inference) whenever
every column dtype is stable under re-chunking (all cells of the column
integer-like or none); the counterexample shows the unamended claim fails
for CSV columns mixing integer-like and other cells, and float-form cells
(excluded by csvWf) break it the same way through per-chunk float64
inference. -/
theorem chunk_size_invariance :
    (∀ (content : String) (fields : List String) (tgt : Option String)
       (cs₁ cs₂ : Int) (C : List String) (rows : List (List String)),
       1 ≤ cs₁ → 1 ≤ cs₂ → parseCsv content = some (C, rows) →
       csvWf C rows → typeStable C.length rows →
       obfuscate_file content fields "csv" tgt cs₁ =
         obfuscate_file content fields "csv" tgt cs₂) ∧
    (∀ (content : String) (fields : List String) (tgt : Option String)
       (cs₁ cs₂ : Int) (K : List String) (objs : List JsonObj),
       ijsonItems content = some objs → jsonObjsWf K objs →
       (∀ o ∈ objs, o.map Prod.fst = K) →
       obfuscate_file content fields "json" tgt cs₁ =
         obfuscate_file content fields "json" tgt cs₂) ∧
    (∀ (content : String) (fields : List String) (tgt : Option String)
       (cs₁ cs₂ : Int), 1 ≤ cs₁ → 1 ≤ cs₂ →
       obfuscate_file content fields "parquet" tgt cs₁ =
         obfuscate_file content fields "parquet" tgt cs₂) := by
  refine ⟨?_, ?_, ?_⟩
  · intro content fields tgt cs₁ cs₂ C rows h₁ h₂ hp hwf hst
    exact obfuscate_lift_conv_eq content fields "csv" "csv" tgt cs₁ cs₂ rfl
      (convert_str_csv_invariant content fields cs₁ cs₂ C rows h₁ h₂ hp
        hwf.1 hst)
  · intro content fields tgt cs₁ cs₂ K objs hit hwf hkeys
    exact obfuscate_lift_conv_eq content fields "json" "json" tgt cs₁ cs₂ rfl
      (convert_str_json_invariant content fields cs₁ cs₂ K objs hit
        hwf.1 hkeys)
  · intro content fields tgt cs₁ cs₂ _ _
    exact obfuscate_lift_conv_eq content fields "parquet" "parquet" tgt cs₁ cs₂
      rfl
      (by rw [convert_str_parquet content fields cs₁,
        convert_str_parquet content fields cs₂])

/-- C4 counterexample: for the CSV input with column a holding cells 01
and 0x, chunk size 1 re-infers the first chunk column as int64 and writes
1, while chunk sizes 7 and 2 (the full row count) keep the strings, so the
outputs at chunk sizes 1, 7 and the full row count are not content-equal. -/
theorem chunk_size_invariance_counterexample :
    obfuscate_file "a,b\n01,p\n0x,q\n" ["b"] "csv" none 1 =
      .ok "a,b\n1,***\n0x,***\n" ∧
    obfuscate_file "a,b\n01,p\n0x,q\n" ["b"] "csv" none 7 =
      .ok "a,b\n01,***\n0x,***\n" ∧
    obfuscate_file "a,b\n01,p\n0x,q\n" ["b"] "csv" none 2 =
      .ok "a,b\n01,***\n0x,***\n" ∧
    ("a,b\n1,***\n0x,***\n" : String) ≠ "a,b\n01,***\n0x,***\n" :=
  ⟨rfl, rfl, rfl, by decide⟩

/-- Witness for the C4 theorem at a concrete type-stable CSV input. -/
theorem chunk_size_invariance_witness :
    (1 : Int) ≤ 1 ∧ (1 : Int) ≤ 2 ∧
    parseCsv "a,b\n1,x\n2,y\n" = some (["a", "b"], [["1", "x"], ["2", "y"]]) ∧
    csvWf ["a", "b"] [["1", "x"], ["2", "y"]] ∧
    typeStable (["a", "b"] : List String).length [["1", "x"], ["2", "y"]] ∧
    obfuscate_file "a,b\n1,x\n2,y\n" ["b"] "csv" none 1 =
      obfuscate_file "a,b\n1,x\n2,y\n" ["b"] "csv" none 2 :=
  ⟨by decide, by decide, rfl, by decide, by decide,
    chunk_size_invariance.1 "a,b\n1,x\n2,y\n" ["b"] none 1 2 ["a", "b"]
      [["1", "x"], ["2", "y"]] (by decide) (by decide) rfl (by decide)
      (by decide)⟩

/-- C6: converting a masked CSV buffer to the json target produces one
JSON object per record, separated by newlines, fields in the original
column order; in particular the concrete one-row student record converts
to exactly the single expected JSON line. -/
theorem json_target_one_object_per_line :
    (∀ (buffer : String) (C : List String) (rows : List (List String)),
       parseCsv buffer = some (C, rows) →
       convert_csv_to_output_format buffer "json" =
         .ok (myIntercalate "\n"
           ((mkDf C rows).rows.map (renderJsonRecord C)))) ∧
    obfuscate_file
      "student_id,name,course,graduation_date,email_address\n1234,John Smith,Software,2024-03-31,j.smith@email.com\n"
      ["name", "email_address"] "csv" (some "json") 5000 =
      .ok "\x7b\"student_id\":1234,\"name\":\"***\",\"course\":\"Software\",\"graduation_date\":\"2024-03-31\",\"email_address\":\"***\"\x7d" := by
  constructor
  · intro buffer C rows hp
    unfold convert_csv_to_output_format
    rw [hp]
    rfl
  · rfl

/-- Witness for the C6 theorem at a concrete masked buffer. -/
theorem json_target_one_object_per_line_witness :
    parseCsv "a,b\n1,***\n" = some (["a", "b"], [["1", "***"]]) ∧
    convert_csv_to_output_format "a,b\n1,***\n" "json" =
      .ok (myIntercalate "\n"
        ((mkDf ["a", "b"] [["1", "***"]]).rows.map
          (renderJsonRecord ["a", "b"]))) :=
  ⟨rfl, json_target_one_object_per_line.1 "a,b\n1,***\n" ["a", "b"]
    [["1", "***"]] rfl⟩

theorem jsonLoop_nonpos_nil (cs : Int) (hcs : cs ≤ 0) (objs : List JsonObj)
    (hne : objs ≠ []) : jsonLoopChunks cs [] objs = [objs] := by
  match objs with
  | [] => exact absurd rfl hne
  | o :: os =>
    simp only [jsonLoopChunks]
    have hlen : ¬((([] ++ [o] : List JsonObj).length : Int) = cs) := by
      simp only [List.nil_append, List.length_cons, List.length_nil]
      omega
    rw [if_neg hlen, jsonLoop_nonpos cs hcs os ([] ++ [o]) (by simp)]
    simp

/-- C8 (amended): the JSON reader performs no chunk-size validation: for
every chunk_size ≤ 0 the flush test len(chunk) == chunk_size of its
grouping loop never fires (a positive length never equals a non-positive
chunk size), so the whole item stream forms one single batch that is
processed normally, instead of the ConfigurationError the claim expects;
stated both at the reader entry point process_json_chunk and at its
grouping loop jsonLoopChunks. -/
theorem json_reader_accepts_nonpositive_chunk_size :
    (∀ (content : String) (fields : List String) (cs : Int)
       (objs : List JsonObj), cs ≤ 0 → ijsonItems content = some objs →
       objs ≠ [] →
       process_json_chunk content fields cs =
         runChunks fields [mkDfFromObjs objs] true "") ∧
    (∀ (cs : Int) (objs : List JsonObj), cs ≤ 0 → objs ≠ [] →
       jsonLoopChunks cs [] objs = [objs]) := by
  constructor
  · intro content fields cs objs hcs hit hne
    unfold process_json_chunk
    rw [hit]
    dsimp only
    rw [jsonLoop_nonpos_nil cs hcs objs hne]
    rfl
  · intro cs objs hcs hne
    exact jsonLoop_nonpos_nil cs hcs objs hne

/-- C8 counterexample: with chunk_size 0 and -3 the JSON reader does not
fail fast with a ConfigurationError; it processes the whole input in one
batch and returns the obfuscated buffer. -/
theorem json_reader_accepts_nonpositive_counterexample :
    process_json_chunk "[\x7b\"a\": 1\x7d]" [] 0 = .ok "a\n1\n" ∧
    process_json_chunk "[\x7b\"a\": 1\x7d]" [] (-3) = .ok "a\n1\n" :=
  ⟨rfl, rfl⟩

/-- Witness for the C8 theorem at a concrete two-record input. -/
theorem json_reader_accepts_nonpositive_witness :
    (0 : Int) ≤ 0 ∧
    ijsonItems "[\x7b\"a\": 1\x7d, \x7b\"a\": 2\x7d]" =
      some [[("a", Value.int 1)], [("a", Value.int 2)]] ∧
    ([[("a", Value.int 1)], [("a", Value.int 2)]] : List JsonObj) ≠ [] ∧
    process_json_chunk "[\x7b\"a\": 1\x7d, \x7b\"a\": 2\x7d]" [] 0 =
      runChunks []
        [mkDfFromObjs [[("a", Value.int 1)], [("a", Value.int 2)]]] true "" ∧
    jsonLoopChunks (-3 : Int) []
        [[("a", Value.int 1)], [("a", Value.int 2)]] =
      [[[("a", Value.int 1)], [("a", Value.int 2)]]] :=
  ⟨by decide, rfl, by decide,
    json_reader_accepts_nonpositive_chunk_size.1
      "[\x7b\"a\": 1\x7d, \x7b\"a\": 2\x7d]" [] 0
      [[("a", Value.int 1)], [("a", Value.int 2)]] (by decide) rfl
      (by decide),
    json_reader_accepts_nonpositive_chunk_size.2 (-3)
      [[("a", Value.int 1)], [("a", Value.int 2)]] (by decide) (by decide)⟩

/-- C7 (amended): obfuscate_file wraps errors with a stage-identifying
message and preserves the exception class (KeyError for chunk-processing
failures, ValueError for file-reading and format failures), but the
handle_file_obfuscation entry point re-raises every error as a generic
Exception carrying only the message string, so its callers cannot branch
on the original kind. -/
theorem error_wrapping_kinds :
    (∀ (content : String) (fields : List String) (ft : String)
       (tgt : Option String) (cs : Int) (e : PyError),
       obfuscate_file_body content fields ft tgt cs = .error e →
       obfuscate_file content fields ft tgt cs =
         .error (wrapObfuscateError e) ∧
       kindOf (wrapObfuscateError e) = kindOf e) ∧
    (∀ m, wrapObfuscateError (.keyError m) =
       .keyError ("Error processing data chunk: " ++ pyStr (.keyError m))) ∧
    (∀ m, wrapObfuscateError (.valueError m) =
       .valueError ("Error reading the file: " ++ m)) ∧
    (∀ (s3 : S3Store) (js : String) (dif : Bool) (ofmt : Option String)
       (cs : Int) (sv : Bool) (e : PyError),
       handle_file_obfuscation s3 js dif ofmt cs sv = .error e →
       kindOf e = .excK) := by
  refine ⟨?_, fun m => rfl, fun m => rfl, ?_⟩
  · intro content fields ft tgt cs e h
    refine ⟨obfuscate_file_of_body_error content fields ft tgt cs e h, ?_⟩
    cases e <;> rfl
  · intro s3 js dif ofmt cs sv e h
    unfold handle_file_obfuscation at h
    cases hb : handle_file_obfuscation_body s3 js dif ofmt cs sv with
    | ok r =>
      rw [hb] at h
      simp at h
    | error e₀ =>
      rw [hb] at h
      cases h
      rfl

/-- C7 counterexample: a FieldNotFound data error and an upstream S3
read failure both leave handle_file_obfuscation as a generic Exception of
identical kind, although obfuscate_file had raised the former as a
KeyError — the caller of the exposed entry point cannot branch on
configuration/data/format/IO kinds. -/
theorem error_wrapping_kinds_counterexample :
    obfuscate_file "a,b\n1,2\n" ["zzz"] "csv" none 5000 =
      .error (.keyError ("Error processing data chunk: " ++
        pyReprStr (fieldNotFoundMsg "zzz"))) ∧
    kindOf (.keyError ("Error processing data chunk: " ++
      pyReprStr (fieldNotFoundMsg "zzz"))) = .keyK ∧
    handle_file_obfuscation [("b", "new_data/f.csv", "a,b\n1,2\n")]
      "\x7b\"file_to_obfuscate\": \"s3://b/new_data/f.csv\", \"pii_fields\": [\"zzz\"]\x7d"
      false none 5000 true =
      .error (.exception
        "'Error processing data chunk: \"Field \\'zzz\\' notfound in the data.\"'") ∧
    handle_file_obfuscation []
      "\x7b\"file_to_obfuscate\": \"s3://b/new_data/f.csv\", \"pii_fields\": [\"a\"]\x7d"
      false none 5000 true =
      .error (.exception
        "An error occurred (NoSuchKey) when calling the GetObject operation: The specified key does not exist.") ∧
    kindOf (PyError.exception
      "'Error processing data chunk: \"Field \\'zzz\\' notfound in the data.\"'") =
      kindOf (PyError.exception
        "An error occurred (NoSuchKey) when calling the GetObject operation: The specified key does not exist.") :=
  ⟨rfl, rfl, rfl, rfl, rfl⟩

/-- Witness for the C7 theorem at concrete inputs. -/
theorem error_wrapping_kinds_witness :
    obfuscate_file_body "a,b\n1,2\n" ["zzz"] "csv" none 5000 =
      .error (.keyError (fieldNotFoundMsg "zzz")) ∧
    (obfuscate_file "a,b\n1,2\n" ["zzz"] "csv" none 5000 =
      .error (wrapObfuscateError (.keyError (fieldNotFoundMsg "zzz"))) ∧
     kindOf (wrapObfuscateError (.keyError (fieldNotFoundMsg "zzz"))) =
       kindOf (.keyError (fieldNotFoundMsg "zzz"))) ∧
    handle_file_obfuscation [] "not json" false none 5000 true =
      .error (.exception "Invalid JSON input") ∧
    kindOf (PyError.exception "Invalid JSON input") = .excK :=
  ⟨rfl,
    error_wrapping_kinds.1 "a,b\n1,2\n" ["zzz"] "csv" none 5000
      (.keyError (fieldNotFoundMsg "zzz")) rfl,
    rfl,
    error_wrapping_kinds.2.2.2 [] "not json" false none 5000 true
      (.exception "Invalid JSON input") rfl⟩

/-- C9 (amended): when the pipeline succeeds and persistence is requested,
handle_file_obfuscation forms the output key by replacing every
occurrence (Python str.replace, not only the first) of "new_data" in the
source key with "processed_data", writes the buffer there and reports that
key; without persistence it returns the in-memory buffer unchanged. -/
theorem persisted_key_replaces_all_occurrences :
    ∀ (s3 : S3Store) (js b k : String) (fl : List String)
      (content ext buf : String) (dif : Bool) (ofmt : Option String)
      (cs : Int),
      json_input_handler js = .ok (b, k, fl) →
      read_s3_file s3 b k = .ok (content, ext) →
      obfuscate_file content fl ext (if dif then ofmt else none) cs =
        .ok buf →
      (fileExtension (strReplace k "new_data" "processed_data") = "csv" ∨
        fileExtension (strReplace k "new_data" "processed_data") = "json" ∨
        fileExtension (strReplace k "new_data" "processed_data") = "parquet") →
      handle_file_obfuscation s3 js dif ofmt cs true =
        .ok (s3Put s3 b (strReplace k "new_data" "processed_data") buf,
          .savedMsg ("Obfuscated file saved to s3://" ++ b ++ "/" ++
            strReplace k "new_data" "processed_data")) ∧
      handle_file_obfuscation s3 js dif ofmt cs false =
        .ok (s3, .buffer buf) := by
  intro s3 js b k fl content ext buf dif ofmt cs hj hr ho hw
  constructor
  · unfold handle_file_obfuscation handle_file_obfuscation_body
    rw [hj]
    dsimp only
    rw [hr]
    dsimp only
    rw [ho]
    dsimp only
    unfold write_s3_file
    rw [if_pos hw]
    rfl
  · unfold handle_file_obfuscation handle_file_obfuscation_body
    rw [hj]
    dsimp only
    rw [hr]
    dsimp only
    rw [ho]
    rfl

/-- C9 counterexample: for a source key holding the staging segment twice,
the code replaces every occurrence, writing to
processed_data/processed_data.csv; the key predicted by the claim
(first occurrence only), processed_data/new_data.csv, is never written. -/
theorem persisted_key_counterexample :
    strReplace "new_data/new_data.csv" "new_data" "processed_data" =
      "processed_data/processed_data.csv" ∧
    handle_file_obfuscation [("b", "new_data/new_data.csv", "a,b\n1,2\n")]
      "\x7b\"file_to_obfuscate\": \"s3://b/new_data/new_data.csv\", \"pii_fields\": [\"a\"]\x7d"
      false none 5000 true =
      .ok ([("b", "new_data/new_data.csv", "a,b\n1,2\n"),
            ("b", "processed_data/processed_data.csv", "a,b\n***,2\n")],
        .savedMsg
          "Obfuscated file saved to s3://b/processed_data/processed_data.csv") ∧
    s3Lookup [("b", "new_data/new_data.csv", "a,b\n1,2\n"),
        ("b", "processed_data/processed_data.csv", "a,b\n***,2\n")] "b"
      "processed_data/new_data.csv" = none :=
  ⟨rfl, rfl, rfl⟩

/-- Witness for the C9 theorem at a concrete store and descriptor. -/
theorem persisted_key_replaces_all_occurrences_witness :
    json_input_handler
      "\x7b\"file_to_obfuscate\": \"s3://b/new_data/f.csv\", \"pii_fields\": [\"a\"]\x7d" =
      .ok ("b", "new_data/f.csv", ["a"]) ∧
    read_s3_file [("b", "new_data/f.csv", "a,b\n1,2\n")] "b" "new_data/f.csv" =
      .ok ("a,b\n1,2\n", "csv") ∧
    obfuscate_file "a,b\n1,2\n" ["a"] "csv"
      (if false then none else none) 5000 = .ok "a,b\n***,2\n" ∧
    fileExtension (strReplace "new_data/f.csv" "new_data" "processed_data") =
      "csv" ∧
    (handle_file_obfuscation [("b", "new_data/f.csv", "a,b\n1,2\n")]
      "\x7b\"file_to_obfuscate\": \"s3://b/new_data/f.csv\", \"pii_fields\": [\"a\"]\x7d"
      false none 5000 true =
      .ok (s3Put [("b", "new_data/f.csv", "a,b\n1,2\n")] "b"
          (strReplace "new_data/f.csv" "new_data" "processed_data")
          "a,b\n***,2\n",
        .savedMsg ("Obfuscated file saved to s3://" ++ "b" ++ "/" ++
          strReplace "new_data/f.csv" "new_data" "processed_data")) ∧
     handle_file_obfuscation [("b", "new_data/f.csv", "a,b\n1,2\n")]
      "\x7b\"file_to_obfuscate\": \"s3://b/new_data/f.csv\", \"pii_fields\": [\"a\"]\x7d"
      false none 5000 false =
      .ok ([("b", "new_data/f.csv", "a,b\n1,2\n")], .buffer "a,b\n***,2\n")) :=
  ⟨rfl, rfl, rfl, rfl,
    persisted_key_replaces_all_occurrences
      [("b", "new_data/f.csv", "a,b\n1,2\n")]
      "\x7b\"file_to_obfuscate\": \"s3://b/new_data/f.csv\", \"pii_fields\": [\"a\"]\x7d"
      "b" "new_data/f.csv" ["a"] "a,b\n1,2\n" "csv" "a,b\n***,2\n" false none
      5000 rfl rfl rfl (by decide)⟩
